import Mathlib

/-!
Verification of the rekordbox PDB / ANLZ binary decoders of
`universal-dj-usb` (files `src/universal_dj_usb/kaitai/rekordbox_pdb.py`,
`src/universal_dj_usb/kaitai/rekordbox_anlz.py`,
`src/universal_dj_usb/advanced_pdb_parser.py`, `src/universal_dj_usb/models.py`).

The Python code reads from a `KaitaiStream`: a byte buffer together with a
current position.  We embed that as `KStream` below.  Fallible reads return
`Option` (a Python exception — EOF, validation failure, bad decode — becomes
`none`).  All integers are modelled as `Nat` (Python payload integers are
non-negative; where Python arithmetic can go negative we switch to `Int`
explicitly, mirroring the source expression).
-/

namespace UDJ

/-- A byte buffer plus current read position, mirroring `KaitaiStream`. -/
structure KStream where
  data : List Nat
  pos : Nat
deriving Repr, DecidableEq

/-- Little-endian value of a byte list (first byte is least significant). -/
def leVal (bs : List Nat) : Nat := bs.foldr (fun x acc => acc * 256 + x) 0

/-- Big-endian value of a byte list (first byte is most significant). -/
def beVal (bs : List Nat) : Nat := bs.foldl (fun acc x => acc * 256 + x) 0

/-- `KaitaiStream.read_bytes`: take `n` bytes at the current position,
advancing it; EOF (fewer than `n` bytes remain) is an error. -/
def readBytesK (n : Nat) (s : KStream) : Option (List Nat × KStream) :=
  if s.pos + n ≤ s.data.length then
    some ((s.data.drop s.pos).take n, ⟨s.data, s.pos + n⟩)
  else
    none

/-- `read_u1`. -/
def readU1K (s : KStream) : Option (Nat × KStream) :=
  (readBytesK 1 s).map (fun r => (leVal r.1, r.2))

/-- `read_u2le`. -/
def readU2leK (s : KStream) : Option (Nat × KStream) :=
  (readBytesK 2 s).map (fun r => (leVal r.1, r.2))

/-- `read_u4le`. -/
def readU4leK (s : KStream) : Option (Nat × KStream) :=
  (readBytesK 4 s).map (fun r => (leVal r.1, r.2))

/-- `read_u2be`. -/
def readU2beK (s : KStream) : Option (Nat × KStream) :=
  (readBytesK 2 s).map (fun r => (beVal r.1, r.2))

/-- `read_u4be`. -/
def readU4beK (s : KStream) : Option (Nat × KStream) :=
  (readBytesK 4 s).map (fun r => (beVal r.1, r.2))

/-- `KaitaiStream.seek` (never fails; later reads check bounds). -/
def seekK (s : KStream) (p : Nat) : KStream := ⟨s.data, p⟩

/-- `read_bytes_full`: all bytes from the current position to the end. -/
def readBytesFullK (s : KStream) : List Nat × KStream :=
  (s.data.drop s.pos, ⟨s.data, s.data.length⟩)

/-- Pure 16-bit little-endian read at an absolute offset of a buffer. -/
def u16leAt (data : List Nat) (i : Nat) : Option Nat :=
  match data[i]?, data[i + 1]? with
  | some a, some b => some (a + 256 * b)
  | _, _ => none

theorem readBytesK_append (pre mid post : List Nat) :
    readBytesK mid.length ⟨pre ++ (mid ++ post), pre.length⟩ =
      some (mid, ⟨pre ++ (mid ++ post), pre.length + mid.length⟩) := by
  unfold readBytesK
  have hlen : pre.length + mid.length ≤ (pre ++ (mid ++ post)).length := by
    simp [List.length_append]
  rw [if_pos hlen]
  have hdrop : (pre ++ (mid ++ post)).drop pre.length = mid ++ post :=
    List.drop_left pre (mid ++ post)
  rw [hdrop]
  have htake : (mid ++ post).take mid.length = mid := List.take_left mid post
  rw [htake]

theorem readBytesK_pos_le {n : Nat} {s : KStream} {bs : List Nat} {s' : KStream}
    (h : readBytesK n s = some (bs, s')) :
    s'.data = s.data ∧ s'.pos = s.pos + n ∧ bs = (s.data.drop s.pos).take n ∧
      s.pos + n ≤ s.data.length := by
  unfold readBytesK at h
  by_cases hb : s.pos + n ≤ s.data.length
  · rw [if_pos hb] at h
    injection h with h1
    injection h1 with hbs hs
    subst hbs; subst hs
    exact ⟨rfl, rfl, rfl, hb⟩
  · rw [if_neg hb] at h
    exact absurd h (by simp)

theorem readBytesK_eval (n : Nat) (data : List Nat) (p : Nat) (h : p + n ≤ data.length) :
    readBytesK n ⟨data, p⟩ = some ((data.drop p).take n, ⟨data, p + n⟩) := by
  unfold readBytesK
  rw [if_pos h]

theorem readU4leK_eval (data : List Nat) (p : Nat) (h : p + 4 ≤ data.length) :
    readU4leK ⟨data, p⟩ = some (leVal ((data.drop p).take 4), ⟨data, p + 4⟩) := by
  unfold readU4leK
  rw [readBytesK_eval 4 data p h]
  rfl

theorem readU2leK_eval (data : List Nat) (p : Nat) (h : p + 2 ≤ data.length) :
    readU2leK ⟨data, p⟩ = some (leVal ((data.drop p).take 2), ⟨data, p + 2⟩) := by
  unfold readU2leK
  rw [readBytesK_eval 2 data p h]
  rfl

theorem readU4beK_eval (data : List Nat) (p : Nat) (h : p + 4 ≤ data.length) :
    readU4beK ⟨data, p⟩ = some (beVal ((data.drop p).take 4), ⟨data, p + 4⟩) := by
  unfold readU4beK
  rw [readBytesK_eval 4 data p h]
  rfl

theorem readU2beK_eval (data : List Nat) (p : Nat) (h : p + 2 ≤ data.length) :
    readU2beK ⟨data, p⟩ = some (beVal ((data.drop p).take 2), ⟨data, p + 2⟩) := by
  unfold readU2beK
  rw [readBytesK_eval 2 data p h]
  rfl

/-! ## PDB file header and table directory (`RekordboxPdb._read`, `Table._read`)

The export (`is_ext = False`) variant is embedded: the repository always
constructs `RekordboxPdb(is_ext=False, ...)`, so the `type` (not `type_ext`)
branches of the generated reader are the live ones. -/

/-- Error taxonomy for the top-level PDB read: the `gap` validation raises
`ValidationNotEqualError` (a format violation); any read past the end of the
buffer raises an EOF error. -/
inductive PdbErr where
  | formatViolation
  | eof
deriving Repr, DecidableEq

/-- Lift an optional read into the error monad, EOF on failure. -/
def liftE {α : Type} (o : Option α) : Except PdbErr α :=
  match o with
  | some a => Except.ok a
  | none => Except.error PdbErr.eof

/-- One table directory entry (`RekordboxPdb.Table._read`): `page_type`,
`empty_candidate`, `first_page` index, `last_page` index, all `u4le`. -/
structure PdbTable where
  typ : Nat
  emptyCandidate : Nat
  firstPage : Nat
  lastPage : Nat
deriving Repr, DecidableEq

/-- Read one table directory entry. -/
def tableRead (s : KStream) : Option (PdbTable × KStream) := do
  let (typ, s) ← readU4leK s
  let (ec, s) ← readU4leK s
  let (fp, s) ← readU4leK s
  let (lp, s) ← readU4leK s
  some (⟨typ, ec, fp, lp⟩, s)

/-- Read `n` consecutive table directory entries
(the `for i in range(self.num_tables)` loop). -/
def tablesRead : Nat → KStream → Option (List PdbTable × KStream)
  | 0, s => some ([], s)
  | n + 1, s => do
    let (t, s1) ← tableRead s
    let (ts, s2) ← tablesRead n s1
    some (t :: ts, s2)

/-- The parsed PDB file header plus table directory. -/
structure PdbFile where
  lenPage : Nat
  numTables : Nat
  nextUnusedPage : Nat
  sequence : Nat
  tables : List PdbTable
deriving Repr, DecidableEq

/-- `RekordboxPdb._read`: six `u4le` header fields, a 4-byte `gap` that must
be all zero (else `ValidationNotEqualError`), then `num_tables` table
directory entries. -/
def pdbRead (data : List Nat) : Except PdbErr PdbFile := do
  let (_, s) ← liftE (readU4leK ⟨data, 0⟩)
  let (lenPage, s) ← liftE (readU4leK s)
  let (numTables, s) ← liftE (readU4leK s)
  let (nextUnused, s) ← liftE (readU4leK s)
  let (_, s) ← liftE (readU4leK s)
  let (seqv, s) ← liftE (readU4leK s)
  let (gap, s) ← liftE (readBytesK 4 s)
  if gap = [0, 0, 0, 0] then do
    let (tables, _) ← liftE (tablesRead numTables s)
    Except.ok ⟨lenPage, numTables, nextUnused, seqv, tables⟩
  else
    Except.error PdbErr.formatViolation

theorem liftE_some {α : Type} (a : α) : liftE (some a) = Except.ok a := rfl

theorem exceptBind_ok {ε α β : Type} (a : α) (f : α → Except ε β) :
    (Except.ok a >>= f : Except ε β) = f a := rfl

theorem optionBind_some {α β : Type} (a : α) (f : α → Option β) :
    (some a >>= f : Option β) = f a := rfl

theorem tableRead_eval (data : List Nat) (p : Nat) (h : p + 16 ≤ data.length) :
    tableRead ⟨data, p⟩ =
      some (⟨leVal ((data.drop p).take 4), leVal ((data.drop (p + 4)).take 4),
             leVal ((data.drop (p + 8)).take 4), leVal ((data.drop (p + 12)).take 4)⟩,
            ⟨data, p + 16⟩) := by
  simp only [tableRead, readU4leK_eval data p (by omega),
    readU4leK_eval data (p + 4) (by omega), readU4leK_eval data (p + 8) (by omega),
    readU4leK_eval data (p + 12) (by omega), optionBind_some]

theorem tablesRead_ok (n : Nat) : ∀ (data : List Nat) (p : Nat),
    p + 16 * n ≤ data.length →
    ∃ ts : List PdbTable,
      tablesRead n ⟨data, p⟩ = some (ts, ⟨data, p + 16 * n⟩) ∧ ts.length = n := by
  induction n with
  | zero =>
    intro data p _
    exact ⟨[], by simp [tablesRead], rfl⟩
  | succ m ih =>
    intro data p h
    obtain ⟨ts, hts, hlen⟩ := ih data (p + 16) (by omega)
    refine ⟨⟨leVal ((data.drop p).take 4), leVal ((data.drop (p + 4)).take 4),
             leVal ((data.drop (p + 8)).take 4), leVal ((data.drop (p + 12)).take 4)⟩ :: ts,
           ?_, by simp [hlen]⟩
    have h16 : p + 16 + 16 * m = p + 16 * (m + 1) := by omega
    show tablesRead (m + 1) ⟨data, p⟩ = _
    unfold tablesRead
    simp only [tableRead_eval data p (by omega), optionBind_some, hts, h16]

theorem pdbRead_eval_pre (data : List Nat) (h : 28 ≤ data.length) :
    pdbRead data =
      (if (data.drop 24).take 4 = [0, 0, 0, 0] then
        (liftE (tablesRead (leVal ((data.drop 8).take 4)) ⟨data, 28⟩)).bind
          (fun r => Except.ok ⟨leVal ((data.drop 4).take 4), leVal ((data.drop 8).take 4),
            leVal ((data.drop 12).take 4), leVal ((data.drop 20).take 4), r.1⟩)
      else Except.error PdbErr.formatViolation) := by
  unfold pdbRead
  simp only [readU4leK_eval data 0 (by omega), readU4leK_eval data 4 (by omega),
    readU4leK_eval data 8 (by omega), readU4leK_eval data 12 (by omega),
    readU4leK_eval data 16 (by omega), readU4leK_eval data 20 (by omega),
    readBytesK_eval 4 data 24 (by omega), liftE_some, exceptBind_ok]
  rfl

/-! ## Page header (`RekordboxPdb.Page._read` and its derived properties) -/

/-- The named fields of a parsed page header (the `_unnamedN` reads are
consumed but, as in the source, not retained). -/
structure PageHeader where
  pageIndex : Nat
  typ : Nat
  nextPageIndex : Nat
  numRowsSmall : Nat
  pageFlags : Nat
  freeSize : Nat
  usedSize : Nat
  numRowsLarge : Nat
deriving Repr, DecidableEq

/-- `Page._read`: 4-byte zero gap (validated), `page_index:u4le`,
`type:u4le`, `next_page` (a `PageRef`, i.e. one `u4le` index), two unknown
4-byte fields, `num_rows_small:u1`, two unknown bytes, `page_flags:u1`,
`free_size:u2le`, `used_size:u2le`, unknown `u2le`, `num_rows_large:u2le`,
two unknown `u2le` fields.  Consumes exactly 40 bytes. -/
def pageHeaderRead (s0 : KStream) : Option (PageHeader × KStream) :=
  match readBytesK 4 s0 with
  | none => none
  | some (gap, s) =>
  if gap = [0, 0, 0, 0] then
    match readU4leK s with
    | none => none
    | some (pageIndex, s) =>
    match readU4leK s with
    | none => none
    | some (typ, s) =>
    match readU4leK s with
    | none => none
    | some (nextIdx, s) =>
    match readU4leK s with
    | none => none
    | some (_, s) =>
    match readBytesK 4 s with
    | none => none
    | some (_, s) =>
    match readU1K s with
    | none => none
    | some (nrs, s) =>
    match readU1K s with
    | none => none
    | some (_, s) =>
    match readU1K s with
    | none => none
    | some (_, s) =>
    match readU1K s with
    | none => none
    | some (flags, s) =>
    match readU2leK s with
    | none => none
    | some (free, s) =>
    match readU2leK s with
    | none => none
    | some (used, s) =>
    match readU2leK s with
    | none => none
    | some (_, s) =>
    match readU2leK s with
    | none => none
    | some (nrl, s) =>
    match readU2leK s with
    | none => none
    | some (_, s) =>
    match readU2leK s with
    | none => none
    | some (_, s) =>
    some (⟨pageIndex, typ, nextIdx, nrs, flags, free, used, nrl⟩, s)
  else none

/-- `Page.num_rows`: `num_rows_large if (num_rows_large > num_rows_small
and num_rows_large != 8191) else num_rows_small`. -/
def pageNumRows (h : PageHeader) : Nat :=
  if h.numRowsLarge > h.numRowsSmall ∧ h.numRowsLarge ≠ 8191 then h.numRowsLarge
  else h.numRowsSmall

/-- `Page.num_row_groups`: `(num_rows - 1) // 16 + 1` with Python floor
division (so 0 rows give 0 groups); the result feeds `range(...)`, whose
length is the clamp of the integer to `Nat`. -/
def pageNumRowGroups (numRows : Nat) : Nat :=
  (((numRows : Int) - 1).fdiv 16 + 1).toNat

/-- `Page.is_data_page`: `(page_flags & 64) == 0`. -/
def pageIsData (h : PageHeader) : Bool := h.pageFlags &&& 64 == 0

theorem readU1K_eval (data : List Nat) (p : Nat) (h : p + 1 ≤ data.length) :
    readU1K ⟨data, p⟩ = some (leVal ((data.drop p).take 1), ⟨data, p + 1⟩) := by
  unfold readU1K
  rw [readBytesK_eval 1 data p h]
  rfl

theorem pageHeaderRead_eval (data : List Nat) (h : 40 ≤ data.length) :
    pageHeaderRead ⟨data, 0⟩ =
      (if data.take 4 = [0, 0, 0, 0] then
        some (⟨leVal ((data.drop 4).take 4), leVal ((data.drop 8).take 4),
               leVal ((data.drop 12).take 4), leVal ((data.drop 24).take 1),
               leVal ((data.drop 27).take 1), leVal ((data.drop 28).take 2),
               leVal ((data.drop 30).take 2), leVal ((data.drop 34).take 2)⟩,
              ⟨data, 40⟩)
      else none) := by
  unfold pageHeaderRead
  have h0 : (data.drop 0).take 4 = data.take 4 := by rw [List.drop_zero]
  simp only [readBytesK_eval 4 data 0 (by omega), optionBind_some, h0]
  by_cases hg : data.take 4 = [0, 0, 0, 0]
  · rw [if_pos hg, if_pos hg]
    simp only [readU4leK_eval data 4 (by omega), readU4leK_eval data 8 (by omega),
      readU4leK_eval data 12 (by omega), readU4leK_eval data 16 (by omega),
      readBytesK_eval 4 data 20 (by omega), readU1K_eval data 24 (by omega),
      readU1K_eval data 25 (by omega), readU1K_eval data 26 (by omega),
      readU1K_eval data 27 (by omega), readU2leK_eval data 28 (by omega),
      readU2leK_eval data 30 (by omega), readU2leK_eval data 32 (by omega),
      readU2leK_eval data 34 (by omega), readU2leK_eval data 36 (by omega),
      readU2leK_eval data 38 (by omega), optionBind_some]
  · rw [if_neg hg, if_neg hg]

/-- A concrete 40-byte page header whose `num_rows_small` is 10 and whose
`num_rows_large` is 5 (all other bytes zero, so the page is a data page). -/
def c2PageBytes : List Nat :=
  [0, 0, 0, 0,
   0, 0, 0, 0,
   0, 0, 0, 0,
   0, 0, 0, 0,
   0, 0, 0, 0,
   0, 0, 0, 0,
   10, 0, 0, 0,
   0, 0, 0, 0,
   0, 0, 5, 0,
   0, 0, 0, 0]

/-- C2 counterexample: a parsed page whose `num_rows_large` is 5 (not the
sentinel 8191) and whose `num_rows_small` is 10 has effective row count 10,
not `num_rows_large`, contradicting the claim that the large count wins
whenever it is not 8191. -/
theorem C2_counterexample :
    (pageHeaderRead ⟨c2PageBytes, 0⟩).map
        (fun r => (r.1.numRowsSmall, r.1.numRowsLarge, pageNumRows r.1)) =
      some (10, 5, 10) ∧ (5 : Nat) ≠ 8191 ∧ (10 : Nat) ≠ 5 := by
  refine ⟨by rfl, by decide, by decide⟩

/-- C2 (amended): for every parsed page, `num_rows` equals `num_rows_large`
exactly when `num_rows_large` is both greater than `num_rows_small` and
different from the sentinel 8191; in every other case (large ≤ small, or
large = 8191) it equals `num_rows_small`. -/
theorem C2_num_rows_tiebreak (data : List Nat) (h : PageHeader) (s : KStream)
    (_hp : pageHeaderRead ⟨data, 0⟩ = some (h, s)) :
    (h.numRowsLarge > h.numRowsSmall ∧ h.numRowsLarge ≠ 8191 →
      pageNumRows h = h.numRowsLarge) ∧
    (h.numRowsLarge ≤ h.numRowsSmall ∨ h.numRowsLarge = 8191 →
      pageNumRows h = h.numRowsSmall) := by
  constructor
  · intro hc
    unfold pageNumRows
    rw [if_pos hc]
  · intro hc
    unfold pageNumRows
    rw [if_neg (by omega)]

/-- C2 witness: the amended tie-break applied to the concrete page of
`c2PageBytes` (large = 5 ≤ small = 10, so the small count 10 is used). -/
theorem C2_num_rows_tiebreak_witness :
    pageNumRows ⟨0, 0, 0, 10, 0, 0, 0, 5⟩ = 10 :=
  (C2_num_rows_tiebreak c2PageBytes ⟨0, 0, 0, 10, 0, 0, 0, 5⟩ ⟨c2PageBytes, 40⟩
    (by rfl)).2 (Or.inl (by decide))

/-- A PDB buffer whose 28-byte header has a non-zero gap field. -/
def c5BadBytes : List Nat :=
  [0, 0, 0, 0, 0, 16, 0, 0, 1, 0, 0, 0, 0, 0, 0, 0,
   0, 0, 0, 0, 0, 0, 0, 0, 1, 0, 0, 0]

/-- A PDB buffer with a zero gap, `num_tables = 1`, and one 16-byte table
directory entry. -/
def c5GoodBytes : List Nat :=
  [0, 0, 0, 0, 0, 16, 0, 0, 1, 0, 0, 0, 0, 0, 0, 0,
   0, 0, 0, 0, 0, 0, 0, 0, 0, 0, 0, 0,
   7, 0, 0, 0, 0, 0, 0, 0, 3, 0, 0, 0, 4, 0, 0, 0]

/-- C5: a buffer whose 4-byte gap field (bytes 24-27) is not all zero is
rejected with a format violation, and the rejection depends only on the
first 28 bytes (so no table directory entry is ever read); with a zero gap
and a large enough buffer, parsing succeeds and reads exactly `num_tables`
table directory entries. -/
theorem C5_header_gap_guard :
    (∀ data : List Nat, 28 ≤ data.length → (data.drop 24).take 4 ≠ [0, 0, 0, 0] →
      pdbRead data = Except.error PdbErr.formatViolation ∧
      ∀ post : List Nat,
        pdbRead (data.take 28 ++ post) = Except.error PdbErr.formatViolation) ∧
    (∀ data : List Nat, 28 ≤ data.length → (data.drop 24).take 4 = [0, 0, 0, 0] →
      28 + 16 * leVal ((data.drop 8).take 4) ≤ data.length →
      ∃ pdb : PdbFile, pdbRead data = Except.ok pdb ∧
        pdb.numTables = leVal ((data.drop 8).take 4) ∧
        pdb.tables.length = pdb.numTables) := by
  constructor
  · intro data hlen hgap
    constructor
    · rw [pdbRead_eval_pre data hlen, if_neg hgap]
    · intro post
      have hl28 : (data.take 28).length = 28 := by
        rw [List.length_take]
        omega
      have hlen2 : 28 ≤ (data.take 28 ++ post).length := by
        rw [List.length_append, hl28]
        omega
      have hsame : ((data.take 28 ++ post).drop 24).take 4 = (data.drop 24).take 4 := by
        rw [List.drop_append_eq_append_drop, hl28]
        have h4 : ((data.take 28).drop 24).length = 4 := by
          rw [List.length_drop, hl28]
        rw [show (24 : Nat) - 28 = 0 by omega, List.drop_zero]
        rw [List.take_append_of_le_length (by omega)]
        have : (data.take 28).drop 24 = (data.drop 24).take 4 := by
          simpa using List.drop_take 28 24 data
        rw [this, List.take_take]
        simp
      rw [pdbRead_eval_pre _ hlen2, if_neg (by rw [hsame]; exact hgap)]
  · intro data hlen hgap hbound
    obtain ⟨ts, hts, htslen⟩ :=
      tablesRead_ok (leVal ((data.drop 8).take 4)) data 28 (by omega)
    refine ⟨⟨leVal ((data.drop 4).take 4), leVal ((data.drop 8).take 4),
             leVal ((data.drop 12).take 4), leVal ((data.drop 20).take 4), ts⟩,
            ?_, rfl, htslen⟩
    rw [pdbRead_eval_pre data hlen, if_pos hgap, hts]
    rfl

/-- C5 witness: the guard theorem applied to the concrete buffers
`c5BadBytes` (non-zero gap, rejected) and `c5GoodBytes` (zero gap, one
table entry read). -/
theorem C5_header_gap_guard_witness :
    pdbRead c5BadBytes = Except.error PdbErr.formatViolation ∧
    ∃ pdb : PdbFile, pdbRead c5GoodBytes = Except.ok pdb ∧
      pdb.numTables = leVal ((c5GoodBytes.drop 8).take 4) ∧
      pdb.tables.length = pdb.numTables :=
  ⟨(C5_header_gap_guard.1 c5BadBytes (by decide) (by decide)).1,
   C5_header_gap_guard.2 c5GoodBytes (by decide) (by decide) (by decide)⟩

/-! ## DeviceSqlString (`RekordboxPdb.DeviceSqlString` and its variants)

Decoded text is represented at the byte / code-unit level: the ASCII codec
is strict (any byte ≥ 128 is a decode error, as in Python's `ascii` codec)
and the UTF-16LE codec pairs bytes little-endian into 16-bit code units
(an odd byte count is a decode error; code-point combination of surrogate
pairs is not modelled). -/

/-- One of the three string payload variants. -/
inductive DeviceSqlBody where
  | shortAscii (length : Nat) (text : List Nat)
  | longAscii (length : Nat) (text : List Nat)
  | longUtf16le (length : Nat) (units : List Nat)
deriving Repr, DecidableEq

/-- A decoded `DeviceSqlString`: the tag byte plus the dispatched body. -/
structure DeviceSqlStr where
  lengthAndKind : Nat
  body : DeviceSqlBody
deriving Repr, DecidableEq

/-- Strict ASCII decoding (returns the bytes; fails on any byte ≥ 128). -/
def asciiDecode (bs : List Nat) : Option (List Nat) :=
  if bs.all (fun b => b < 128) then some bs else none

/-- UTF-16LE decoding to 16-bit code units; odd byte counts fail. -/
def utf16leUnits : List Nat → Option (List Nat)
  | [] => some []
  | [_] => none
  | a :: b :: rest =>
    match utf16leUnits rest with
    | none => none
    | some us => some ((a + 256 * b) :: us)

/-- `DeviceSqlString._read`: one tag byte (`length_and_kind`), then a
dispatch: `0x40` reads a `u2le` length plus one reserved byte and a body of
`length - 4` ASCII bytes (`DeviceSqlLongAscii._read`); `0x90` reads the
same sub-header and a body of `length - 4` UTF-16LE bytes
(`DeviceSqlLongUtf16le._read`); any other tag `t` is a
`DeviceSqlShortAscii` whose stored length is `t >> 1` and whose body is
`(t >> 1) - 1` ASCII bytes.  A negative byte count passed to `read_bytes`
(length below 4 in the long forms, tag below 2 in the short form) raises
in Python and is `none` here. -/
def deviceSqlStringRead (s0 : KStream) : Option (DeviceSqlStr × KStream) :=
  match readU1K s0 with
  | none => none
  | some (tag, s) =>
  if tag = 64 then
    match readU2leK s with
    | none => none
    | some (len, s) =>
    match readU1K s with
    | none => none
    | some (_, s) =>
    if len < 4 then none
    else
      match readBytesK (len - 4) s with
      | none => none
      | some (bs, s) =>
      match asciiDecode bs with
      | none => none
      | some text => some (⟨tag, DeviceSqlBody.longAscii len text⟩, s)
  else if tag = 144 then
    match readU2leK s with
    | none => none
    | some (len, s) =>
    match readU1K s with
    | none => none
    | some (_, s) =>
    if len < 4 then none
    else
      match readBytesK (len - 4) s with
      | none => none
      | some (bs, s) =>
      match utf16leUnits bs with
      | none => none
      | some units => some (⟨tag, DeviceSqlBody.longUtf16le len units⟩, s)
  else
    if tag >>> 1 = 0 then none
    else
      match readBytesK (tag >>> 1 - 1) s with
      | none => none
      | some (bs, s) =>
      match asciiDecode bs with
      | none => none
      | some text => some (⟨tag, DeviceSqlBody.shortAscii (tag >>> 1) text⟩, s)

theorem leVal_single (a : Nat) : leVal [a] = a := by
  simp [leVal]

theorem leVal_pair_mod_div (l : Nat) : leVal [l % 256, l / 256] = l := by
  simp only [leVal, List.foldr]
  omega

/-- C6: the DeviceSqlString dispatch on the tag byte.  Tag `0x40` consumes
a `u2le` length, one reserved byte and `length - 4` body bytes decoded as
ASCII; tag `0x90` consumes the same sub-header and `length - 4` body bytes
decoded as UTF-16LE; any other tag `t` yields a short-ASCII string of
stored length `t >> 1` whose body is the following `(t >> 1) - 1` bytes. -/
theorem C6_device_sql_string_dispatch :
    (∀ (l r : Nat) (body rest : List Nat),
      4 ≤ l → l < 65536 → body.length = l - 4 →
      body.all (fun b => b < 128) = true →
      deviceSqlStringRead ⟨64 :: l % 256 :: l / 256 :: r :: (body ++ rest), 0⟩ =
        some (⟨64, DeviceSqlBody.longAscii l body⟩,
              ⟨64 :: l % 256 :: l / 256 :: r :: (body ++ rest), 4 + (l - 4)⟩)) ∧
    (∀ (l r : Nat) (body rest : List Nat) (units : List Nat),
      4 ≤ l → l < 65536 → body.length = l - 4 →
      utf16leUnits body = some units →
      deviceSqlStringRead ⟨144 :: l % 256 :: l / 256 :: r :: (body ++ rest), 0⟩ =
        some (⟨144, DeviceSqlBody.longUtf16le l units⟩,
              ⟨144 :: l % 256 :: l / 256 :: r :: (body ++ rest), 4 + (l - 4)⟩)) ∧
    (∀ (t : Nat) (body rest : List Nat),
      t ≠ 64 → t ≠ 144 → 1 ≤ t >>> 1 → body.length = t >>> 1 - 1 →
      body.all (fun b => b < 128) = true →
      deviceSqlStringRead ⟨t :: (body ++ rest), 0⟩ =
        some (⟨t, DeviceSqlBody.shortAscii (t >>> 1) body⟩,
              ⟨t :: (body ++ rest), 1 + (t >>> 1 - 1)⟩)) := by
  refine ⟨?_, ?_, ?_⟩
  · intro l r body rest hl4 hl hlen hascii
    have h1 : readBytesK 1 ⟨64 :: l % 256 :: l / 256 :: r :: (body ++ rest), 0⟩ =
        some ([64], ⟨64 :: l % 256 :: l / 256 :: r :: (body ++ rest), 1⟩) := by
      simpa using readBytesK_append [] [64] (l % 256 :: l / 256 :: r :: (body ++ rest))
    have h2 : readBytesK 2 ⟨64 :: l % 256 :: l / 256 :: r :: (body ++ rest), 1⟩ =
        some ([l % 256, l / 256],
              ⟨64 :: l % 256 :: l / 256 :: r :: (body ++ rest), 3⟩) := by
      simpa using readBytesK_append [64] [l % 256, l / 256] (r :: (body ++ rest))
    have h3 : readBytesK 1 ⟨64 :: l % 256 :: l / 256 :: r :: (body ++ rest), 3⟩ =
        some ([r], ⟨64 :: l % 256 :: l / 256 :: r :: (body ++ rest), 4⟩) := by
      simpa using readBytesK_append [64, l % 256, l / 256] [r] (body ++ rest)
    have h4 : readBytesK (l - 4) ⟨64 :: l % 256 :: l / 256 :: r :: (body ++ rest), 4⟩ =
        some (body, ⟨64 :: l % 256 :: l / 256 :: r :: (body ++ rest), 4 + (l - 4)⟩) := by
      have hb := readBytesK_append [64, l % 256, l / 256, r] body rest
      rw [hlen] at hb
      simpa using hb
    have hnl4 : ¬ l < 4 := by omega
    unfold deviceSqlStringRead
    simp [readU1K, readU2leK, h1, h2, h3, h4, leVal_single, leVal_pair_mod_div,
      asciiDecode, hascii, hnl4]
  · intro l r body rest units hl4 hl hlen hunits
    have h1 : readBytesK 1 ⟨144 :: l % 256 :: l / 256 :: r :: (body ++ rest), 0⟩ =
        some ([144], ⟨144 :: l % 256 :: l / 256 :: r :: (body ++ rest), 1⟩) := by
      simpa using readBytesK_append [] [144] (l % 256 :: l / 256 :: r :: (body ++ rest))
    have h2 : readBytesK 2 ⟨144 :: l % 256 :: l / 256 :: r :: (body ++ rest), 1⟩ =
        some ([l % 256, l / 256],
              ⟨144 :: l % 256 :: l / 256 :: r :: (body ++ rest), 3⟩) := by
      simpa using readBytesK_append [144] [l % 256, l / 256] (r :: (body ++ rest))
    have h3 : readBytesK 1 ⟨144 :: l % 256 :: l / 256 :: r :: (body ++ rest), 3⟩ =
        some ([r], ⟨144 :: l % 256 :: l / 256 :: r :: (body ++ rest), 4⟩) := by
      simpa using readBytesK_append [144, l % 256, l / 256] [r] (body ++ rest)
    have h4 : readBytesK (l - 4) ⟨144 :: l % 256 :: l / 256 :: r :: (body ++ rest), 4⟩ =
        some (body, ⟨144 :: l % 256 :: l / 256 :: r :: (body ++ rest), 4 + (l - 4)⟩) := by
      have hb := readBytesK_append [144, l % 256, l / 256, r] body rest
      rw [hlen] at hb
      simpa using hb
    have hnl4 : ¬ l < 4 := by omega
    unfold deviceSqlStringRead
    simp [readU1K, readU2leK, h1, h2, h3, h4, leVal_single, leVal_pair_mod_div,
      hunits, hnl4]
  · intro t body rest ht64 ht144 htag hlen hascii
    have h1 : readBytesK 1 ⟨t :: (body ++ rest), 0⟩ =
        some ([t], ⟨t :: (body ++ rest), 1⟩) := by
      simpa using readBytesK_append [] [t] (body ++ rest)
    have h2 : readBytesK (t >>> 1 - 1) ⟨t :: (body ++ rest), 1⟩ =
        some (body, ⟨t :: (body ++ rest), 1 + (t >>> 1 - 1)⟩) := by
      have hb := readBytesK_append [t] body rest
      rw [hlen] at hb
      simpa using hb
    have hntag : ¬ t >>> 1 = 0 := by omega
    unfold deviceSqlStringRead
    simp [readU1K, h1, h2, leVal_single, asciiDecode, hascii, ht64, ht144, hntag]

/-- C6 witness: the dispatch evaluated on one concrete buffer per tag kind
(long-ASCII with length 9, long-UTF-16LE with length 8, and short-ASCII
with tag 11, i.e. stored length 5). -/
theorem C6_device_sql_string_dispatch_witness :
    deviceSqlStringRead ⟨[64, 9, 0, 0, 72, 101, 108, 108, 111], 0⟩ =
      some (⟨64, DeviceSqlBody.longAscii 9 [72, 101, 108, 108, 111]⟩,
            ⟨[64, 9, 0, 0, 72, 101, 108, 108, 111], 9⟩) ∧
    deviceSqlStringRead ⟨[144, 8, 0, 0, 72, 0, 105, 0], 0⟩ =
      some (⟨144, DeviceSqlBody.longUtf16le 8 [72, 105]⟩,
            ⟨[144, 8, 0, 0, 72, 0, 105, 0], 8⟩) ∧
    deviceSqlStringRead ⟨[11, 68, 74, 85, 66], 0⟩ =
      some (⟨11, DeviceSqlBody.shortAscii 5 [68, 74, 85, 66]⟩,
            ⟨[11, 68, 74, 85, 66], 5⟩) := by
  refine ⟨?_, ?_, ?_⟩
  · have h := C6_device_sql_string_dispatch.1 9 0 [72, 101, 108, 108, 111] []
      (by decide) (by decide) (by decide) (by decide)
    simpa using h
  · have h := C6_device_sql_string_dispatch.2.1 8 0 [72, 0, 105, 0] [] [72, 105]
      (by decide) (by decide) (by decide) (by decide)
    simpa using h
  · have h := C6_device_sql_string_dispatch.2.2 11 [68, 74, 85, 66] []
      (by decide) (by decide) (by decide) (by decide) (by decide)
    simpa using h

/-! ## Row index (`RekordboxPdb.RowGroup`, `RekordboxPdb.RowRef`)

The lazy `row_present_flags` / `ofs_row` properties each save the stream
position, seek to the index slot, read a `u2le`, and restore the saved
position.  `heap_pos` is the stream position right after the 40-byte page
header.  The walker (`get_tracks` etc.) yields, for each of the
`num_row_groups` groups and each of its 16 slots, the rows whose presence
bit is set; a present row's bytes start at `ofs_row + heap_pos`. -/

/-- `RowGroup.base`: `_root.len_page - group_index * 36`. -/
def rowGroupBase (lenPage g : Nat) : Nat := lenPage - 36 * g

/-- `RowGroup.row_present_flags`: save position, seek to `base - 4`, read a
`u2le`, restore the position. -/
def rowPresentFlagsAcc (lenPage g : Nat) (s : KStream) : Option (Nat × KStream) :=
  match readU2leK (seekK s (rowGroupBase lenPage g - 4)) with
  | none => none
  | some (v, s2) => some (v, seekK s2 s.pos)

/-- `RowRef.ofs_row`: save position, seek to `base - (6 + 2 * row_index)`,
read a `u2le`, restore the position. -/
def ofsRowAcc (lenPage g i : Nat) (s : KStream) : Option (Nat × KStream) :=
  match readU2leK (seekK s (rowGroupBase lenPage g - (6 + 2 * i))) with
  | none => none
  | some (v, s2) => some (v, seekK s2 s.pos)

/-- `RowRef.present`: `((row_present_flags >> row_index) & 1) != 0`. -/
def rowPresent (flags i : Nat) : Bool := (flags >>> i) &&& 1 != 0

/-- The walker's inner slot loop restricted to the first `k` of the 16
slots of group `g`: a slot is yielded iff its presence bit is set, and a
yielded slot's row base is `ofs_row + heap_pos`. -/
def slotRowsUpTo (lenPage heapStart g flags : Nat) (s : KStream) :
    Nat → Option (List (Nat × Nat × Nat))
  | 0 => some []
  | i + 1 =>
    match slotRowsUpTo lenPage heapStart g flags s i with
    | none => none
    | some prev =>
      if rowPresent flags i then
        match ofsRowAcc lenPage g i s with
        | none => none
        | some (ofs, _) => some (prev ++ [(g, i, ofs + heapStart)])
      else some prev

/-- The walker's outer loop over the first `count` row groups. -/
def groupRowsUpTo (lenPage heapStart : Nat) (s : KStream) :
    Nat → Option (List (Nat × Nat × Nat))
  | 0 => some []
  | g + 1 =>
    match groupRowsUpTo lenPage heapStart s g with
    | none => none
    | some prev =>
      match rowPresentFlagsAcc lenPage g s with
      | none => none
      | some (flags, _) =>
        match slotRowsUpTo lenPage heapStart g flags s 16 with
        | none => none
        | some cur => some (prev ++ cur)

/-- The `(group, slot, row_base)` triples reported for a page buffer: parse
the header, and on a data page enumerate all `num_row_groups` groups. -/
def pageReportedRows (lenPage : Nat) (pageBytes : List Nat) :
    Option (List (Nat × Nat × Nat)) :=
  match pageHeaderRead ⟨pageBytes, 0⟩ with
  | none => none
  | some (hdr, s) =>
    if pageIsData hdr then
      groupRowsUpTo lenPage s.pos s (pageNumRowGroups (pageNumRows hdr))
    else none

/-- Spec-side slot enumeration, transcribed from the claim: slot `i` of
group `g` is present iff bit `i` of the mask is 1, and a present row starts
at the `u16` row offset plus the heap start. -/
def rowIndexSpecSlots (data : List Nat) (lenPage heapStart g mask : Nat) :
    Nat → Option (List (Nat × Nat × Nat))
  | 0 => some []
  | i + 1 =>
    match rowIndexSpecSlots data lenPage heapStart g mask i with
    | none => none
    | some prev =>
      if mask.testBit i then
        match u16leAt data (lenPage - 36 * g - (6 + 2 * i)) with
        | none => none
        | some ofs => some (prev ++ [(g, i, ofs + heapStart)])
      else some prev

/-- Spec-side group enumeration, transcribed from the claim: for group `g`
the base is `page_size - 36 * g` and the 16-bit presence bitmask is the
`u16` located 4 bytes before that base. -/
def rowIndexSpecGroups (data : List Nat) (lenPage heapStart : Nat) :
    Nat → Option (List (Nat × Nat × Nat))
  | 0 => some []
  | g + 1 =>
    match rowIndexSpecGroups data lenPage heapStart g with
    | none => none
    | some prev =>
      match u16leAt data (lenPage - 36 * g - 4) with
      | none => none
      | some mask =>
        match rowIndexSpecSlots data lenPage heapStart g mask 16 with
        | none => none
        | some cur => some (prev ++ cur)

/-- Spec-side row index, transcribed from the claim: `ceil(num_rows / 16)`
row groups, enumerated in order. -/
def rowIndexSpec (data : List Nat) (lenPage numRows heapStart : Nat) :
    Option (List (Nat × Nat × Nat)) :=
  rowIndexSpecGroups data lenPage heapStart ((numRows + 15) / 16)

theorem rowPresent_eq_testBit (flags i : Nat) :
    rowPresent flags i = flags.testBit i := by
  simp [rowPresent, Nat.testBit, Nat.and_comm]

theorem readU2leK_u16leAt (data : List Nat) (p : Nat) :
    readU2leK ⟨data, p⟩ =
      (u16leAt data p).map (fun v => (v, (⟨data, p + 2⟩ : KStream))) := by
  unfold readU2leK readBytesK u16leAt
  by_cases h : p + 2 ≤ data.length
  · have h1 : p < data.length := by omega
    have h2 : p + 1 < data.length := by omega
    have hd : data.drop p = data[p] :: data.drop (p + 1) := List.drop_eq_getElem_cons h1
    have hd2 : data.drop (p + 1) = data[p + 1] :: data.drop (p + 2) :=
      List.drop_eq_getElem_cons h2
    have hval : leVal ((data[p] :: data[p + 1] :: data.drop (p + 2)).take 2) =
        data[p] + 256 * data[p + 1] := by
      show (0 * 256 + data[p + 1]) * 256 + data[p] = data[p] + 256 * data[p + 1]
      omega
    rw [if_pos h, List.getElem?_eq_getElem h1, List.getElem?_eq_getElem h2, hd, hd2]
    simp only [Option.map_some']
    rw [hval]
  · rw [if_neg h]
    have hn : data[p + 1]? = none := by
      rw [List.getElem?_eq_none]
      omega
    rw [hn]
    cases data[p]? <;> simp

theorem u16leAt_some (data : List Nat) (p : Nat) (h : p + 2 ≤ data.length) :
    ∃ v, u16leAt data p = some v := by
  unfold u16leAt
  rw [List.getElem?_eq_getElem (by omega : p < data.length),
      List.getElem?_eq_getElem (by omega : p + 1 < data.length)]
  exact ⟨_, rfl⟩

theorem rowPresentFlagsAcc_eval (lenPage g : Nat) (s : KStream) :
    rowPresentFlagsAcc lenPage g s =
      (u16leAt s.data (lenPage - 36 * g - 4)).map (fun v => (v, s)) := by
  unfold rowPresentFlagsAcc seekK rowGroupBase
  rw [readU2leK_u16leAt]
  cases u16leAt s.data (lenPage - 36 * g - 4) <;> simp [seekK]

theorem ofsRowAcc_eval (lenPage g i : Nat) (s : KStream) :
    ofsRowAcc lenPage g i s =
      (u16leAt s.data (lenPage - 36 * g - (6 + 2 * i))).map (fun v => (v, s)) := by
  unfold ofsRowAcc seekK rowGroupBase
  rw [readU2leK_u16leAt]
  cases u16leAt s.data (lenPage - 36 * g - (6 + 2 * i)) <;> simp [seekK]

theorem slotRowsUpTo_eq_spec (lenPage heapStart g flags : Nat) (s : KStream) :
    ∀ k : Nat, slotRowsUpTo lenPage heapStart g flags s k =
      rowIndexSpecSlots s.data lenPage heapStart g flags k := by
  intro k
  induction k with
  | zero => rfl
  | succ i ih =>
    unfold slotRowsUpTo rowIndexSpecSlots
    rw [ih]
    cases rowIndexSpecSlots s.data lenPage heapStart g flags i with
    | none => rfl
    | some prev =>
      try dsimp only
      rw [rowPresent_eq_testBit]
      by_cases hbit : flags.testBit i
      · rw [if_pos hbit, if_pos hbit, ofsRowAcc_eval]
        cases u16leAt s.data (lenPage - 36 * g - (6 + 2 * i)) <;> rfl
      · rw [if_neg hbit, if_neg hbit]

theorem groupRowsUpTo_eq_spec (lenPage heapStart : Nat) (s : KStream) :
    ∀ G : Nat, groupRowsUpTo lenPage heapStart s G =
      rowIndexSpecGroups s.data lenPage heapStart G := by
  intro G
  induction G with
  | zero => rfl
  | succ g ih =>
    unfold groupRowsUpTo rowIndexSpecGroups
    rw [ih]
    cases rowIndexSpecGroups s.data lenPage heapStart g with
    | none => rfl
    | some prev =>
      try dsimp only
      rw [rowPresentFlagsAcc_eval]
      cases u16leAt s.data (lenPage - 36 * g - 4) with
      | none => rfl
      | some mask =>
        simp only [Option.map_some']
        try dsimp only
        rw [slotRowsUpTo_eq_spec]

theorem slotRowsUpTo_some (lenPage heapStart g flags : Nat) (s : KStream)
    (hb : 36 * (g + 1) ≤ lenPage) (hlen : lenPage ≤ s.data.length) :
    ∀ k : Nat, k ≤ 16 → ∃ rows, slotRowsUpTo lenPage heapStart g flags s k = some rows := by
  intro k
  induction k with
  | zero => exact fun _ => ⟨[], rfl⟩
  | succ i ih =>
    intro hk
    obtain ⟨prev, hprev⟩ := ih (by omega)
    unfold slotRowsUpTo
    rw [hprev]
    try dsimp only
    by_cases hbit : rowPresent flags i
    · rw [if_pos hbit]
      have hpos : (lenPage - 36 * g - (6 + 2 * i)) + 2 ≤ s.data.length := by omega
      obtain ⟨v, hv⟩ := u16leAt_some s.data _ hpos
      rw [ofsRowAcc_eval, hv]
      exact ⟨_, rfl⟩
    · rw [if_neg hbit]
      exact ⟨prev, rfl⟩

theorem groupRowsUpTo_some (lenPage heapStart : Nat) (s : KStream) (G : Nat)
    (hb : 36 * G ≤ lenPage) (hlen : lenPage ≤ s.data.length) :
    ∀ g : Nat, g ≤ G → ∃ rows, groupRowsUpTo lenPage heapStart s g = some rows := by
  intro g
  induction g with
  | zero => exact fun _ => ⟨[], rfl⟩
  | succ g ih =>
    intro hg
    obtain ⟨prev, hprev⟩ := ih (by omega)
    unfold groupRowsUpTo
    rw [hprev]
    try dsimp only
    have hb1 : 36 * (g + 1) ≤ lenPage := by omega
    have hmaskpos : (lenPage - 36 * g - 4) + 2 ≤ s.data.length := by omega
    obtain ⟨mask, hmask⟩ := u16leAt_some s.data _ hmaskpos
    rw [rowPresentFlagsAcc_eval, hmask]
    obtain ⟨cur, hcur⟩ := slotRowsUpTo_some lenPage heapStart g mask s hb1 hlen 16 (by omega)
    simp only [Option.map_some']
    try dsimp only
    rw [hcur]
    exact ⟨_, rfl⟩

theorem pageNumRowGroups_eq_ceil (n : Nat) : pageNumRowGroups n = (n + 15) / 16 := by
  unfold pageNumRowGroups
  cases n with
  | zero => decide
  | succ m =>
    have h1 : ((m + 1 : Nat) : Int) - 1 = (m : Int) := by push_cast; ring
    rw [h1, Int.fdiv_eq_ediv _ (by norm_num)]
    omega

/-- C4: on a data page (`page_flags` bit 6 clear), the walker-visible row
index — groups enumerated as in the code, each slot's presence bit and row
offset read through the lazy seek/restore accessors — reports exactly the
rows described by the claim: `ceil(num_rows/16)` groups, group `g` based at
`page_size - 36*g`, presence mask 4 bytes before the base, slot `i` present
iff bit `i` of the mask is set, and each present row starting at its `u16`
row offset plus heap start 40 (the first byte after the page header);
moreover the enumeration succeeds (no read leaves the page). -/
theorem C4_row_index_layout (pageBytes : List Nat) (lenPage : Nat)
    (hdr : PageHeader) (s : KStream)
    (h40 : 40 ≤ pageBytes.length)
    (hgap : pageBytes.take 4 = [0, 0, 0, 0])
    (hp : pageHeaderRead ⟨pageBytes, 0⟩ = some (hdr, s))
    (hdata : pageIsData hdr = true)
    (hlen : lenPage ≤ pageBytes.length)
    (hG : 36 * ((pageNumRows hdr + 15) / 16) ≤ lenPage) :
    pageNumRowGroups (pageNumRows hdr) = (pageNumRows hdr + 15) / 16 ∧
    pageReportedRows lenPage pageBytes =
      rowIndexSpec pageBytes lenPage (pageNumRows hdr) 40 ∧
    ∃ rows, pageReportedRows lenPage pageBytes = some rows := by
  have hs : s = ⟨pageBytes, 40⟩ := by
    rw [pageHeaderRead_eval pageBytes h40, if_pos hgap] at hp
    injection hp with hpair
    injection hpair with hh hside
    exact hside.symm
  have hrep : pageReportedRows lenPage pageBytes =
      groupRowsUpTo lenPage 40 ⟨pageBytes, 40⟩ (pageNumRowGroups (pageNumRows hdr)) := by
    unfold pageReportedRows
    rw [hp, hs]
    simp [hdata]
  refine ⟨pageNumRowGroups_eq_ceil _, ?_, ?_⟩
  · rw [hrep, groupRowsUpTo_eq_spec, pageNumRowGroups_eq_ceil]
    rfl
  · rw [hrep]
    obtain ⟨rows, hrows⟩ := groupRowsUpTo_some lenPage 40 ⟨pageBytes, 40⟩
      ((pageNumRows hdr + 15) / 16) hG hlen (pageNumRowGroups (pageNumRows hdr))
      (by rw [pageNumRowGroups_eq_ceil])
    exact ⟨rows, hrows⟩

/-- A concrete 76-byte data page: 40-byte header (`num_rows_small = 2`,
`num_rows_large = 0`, data flags), followed by the heap, followed by one
row group whose presence mask 3 marks slots 0 and 1, with row offsets 0
and 12. -/
def c4PageBytes : List Nat :=
  [0, 0, 0, 0,
   1, 0, 0, 0,
   0, 0, 0, 0,
   0, 0, 0, 0,
   0, 0, 0, 0,
   0, 0, 0, 0,
   2, 0, 0, 0,
   0, 0, 0, 0,
   0, 0, 0, 0,
   0, 0, 0, 0,
   0, 0, 0, 0, 0, 0, 0, 0, 0, 0, 0, 0, 0, 0,
   0, 0, 0, 0, 0, 0, 0, 0, 0, 0, 0, 0, 0, 0,
   12, 0,
   0, 0,
   3, 0,
   0, 0]

/-- C4 witness: the layout theorem applied to the concrete page
`c4PageBytes` (pageNumRows = 2, one row group, slots 0 and 1 present with
row bases 40 and 52). -/
theorem C4_row_index_layout_witness :
    pageReportedRows 76 c4PageBytes = rowIndexSpec c4PageBytes 76 2 40 ∧
    pageReportedRows 76 c4PageBytes = some [(0, 0, 40), (0, 1, 52)] :=
  ⟨(C4_row_index_layout c4PageBytes 76 ⟨1, 0, 0, 2, 0, 0, 0, 0⟩ ⟨c4PageBytes, 40⟩
      (by decide) (by decide) (by rfl) (by decide) (by decide) (by decide)).2.1,
   by decide⟩

/-! ## TrackRow and ArtistRow fixed fields and lazy string accessors
(`RekordboxPdb.TrackRow`, `RekordboxPdb.ArtistRow`) -/

/-- Read `n` consecutive `u2le` values (the `ofs_strings` loop). -/
def readU2leList : Nat → KStream → Option (List Nat × KStream)
  | 0, s => some ([], s)
  | n + 1, s =>
    match readU2leK s with
    | none => none
    | some (v, s1) =>
      match readU2leList n s1 with
      | none => none
      | some (vs, s2) => some (v :: vs, s2)

/-- The named fixed-width fields of `TrackRow._read` (the `_unnamedN` reads
are consumed but not retained), plus the 21 string offsets. -/
structure TrackRow where
  indexShift : Nat
  bitmask : Nat
  sampleRate : Nat
  composerId : Nat
  fileSize : Nat
  artworkId : Nat
  keyId : Nat
  originalArtistId : Nat
  labelId : Nat
  remixerId : Nat
  bitrate : Nat
  trackNumber : Nat
  tempo : Nat
  genreId : Nat
  albumId : Nat
  artistId : Nat
  id : Nat
  discNumber : Nat
  playCount : Nat
  year : Nat
  sampleDepth : Nat
  duration : Nat
  colorId : Nat
  rating : Nat
  ofsStrings : List Nat
deriving Repr, DecidableEq

/-- `TrackRow._read`: the fixed field sequence followed by 21 `u2le` string
offsets. -/
def trackRowRead (s0 : KStream) : Option (TrackRow × KStream) :=
  match readU2leK s0 with
  | none => none
  | some (_, s) =>
  match readU2leK s with
  | none => none
  | some (indexShift, s) =>
  match readU4leK s with
  | none => none
  | some (bitmask, s) =>
  match readU4leK s with
  | none => none
  | some (sampleRate, s) =>
  match readU4leK s with
  | none => none
  | some (composerId, s) =>
  match readU4leK s with
  | none => none
  | some (fileSize, s) =>
  match readU4leK s with
  | none => none
  | some (_, s) =>
  match readU2leK s with
  | none => none
  | some (_, s) =>
  match readU2leK s with
  | none => none
  | some (_, s) =>
  match readU4leK s with
  | none => none
  | some (artworkId, s) =>
  match readU4leK s with
  | none => none
  | some (keyId, s) =>
  match readU4leK s with
  | none => none
  | some (originalArtistId, s) =>
  match readU4leK s with
  | none => none
  | some (labelId, s) =>
  match readU4leK s with
  | none => none
  | some (remixerId, s) =>
  match readU4leK s with
  | none => none
  | some (bitrate, s) =>
  match readU4leK s with
  | none => none
  | some (trackNumber, s) =>
  match readU4leK s with
  | none => none
  | some (tempo, s) =>
  match readU4leK s with
  | none => none
  | some (genreId, s) =>
  match readU4leK s with
  | none => none
  | some (albumId, s) =>
  match readU4leK s with
  | none => none
  | some (artistId, s) =>
  match readU4leK s with
  | none => none
  | some (id, s) =>
  match readU2leK s with
  | none => none
  | some (discNumber, s) =>
  match readU2leK s with
  | none => none
  | some (playCount, s) =>
  match readU2leK s with
  | none => none
  | some (year, s) =>
  match readU2leK s with
  | none => none
  | some (sampleDepth, s) =>
  match readU2leK s with
  | none => none
  | some (duration, s) =>
  match readU2leK s with
  | none => none
  | some (_, s) =>
  match readU1K s with
  | none => none
  | some (colorId, s) =>
  match readU1K s with
  | none => none
  | some (rating, s) =>
  match readU2leK s with
  | none => none
  | some (_, s) =>
  match readU2leK s with
  | none => none
  | some (_, s) =>
  match readU2leList 21 s with
  | none => none
  | some (ofsStrings, s) =>
  some (⟨indexShift, bitmask, sampleRate, composerId, fileSize, artworkId, keyId,
         originalArtistId, labelId, remixerId, bitrate, trackNumber, tempo, genreId,
         albumId, artistId, id, discNumber, playCount, year, sampleDepth, duration,
         colorId, rating, ofsStrings⟩, s)

/-- The named fields of `ArtistRow._read`: `subtype:u2le`,
`index_shift:u2le`, `id:u4le`, one unknown byte, `ofs_name_near:u1`. -/
structure ArtistRow where
  subtype : Nat
  indexShift : Nat
  id : Nat
  ofsNameNear : Nat
deriving Repr, DecidableEq

/-- `ArtistRow._read`. -/
def artistRowRead (s0 : KStream) : Option (ArtistRow × KStream) :=
  match readU2leK s0 with
  | none => none
  | some (subtype, s) =>
  match readU2leK s with
  | none => none
  | some (indexShift, s) =>
  match readU4leK s with
  | none => none
  | some (id, s) =>
  match readU1K s with
  | none => none
  | some (_, s) =>
  match readU1K s with
  | none => none
  | some (ofsNameNear, s) =>
  some (⟨subtype, indexShift, id, ofsNameNear⟩, s)

/-- `TrackRow.title`: save position, seek to
`row_base + ofs_strings[17]`, parse a `DeviceSqlString`, restore the saved
position (the source list always holds 21 offsets, so index 17 is inside). -/
def trackTitleAcc (rowBase : Nat) (t : TrackRow) (s : KStream) :
    Option (DeviceSqlStr × KStream) :=
  match deviceSqlStringRead (seekK s (rowBase + t.ofsStrings.getD 17 0)) with
  | none => none
  | some (v, s2) => some (v, seekK s2 s.pos)

/-- `ArtistRow.ofs_name_far`: when `subtype == 100`, save position, seek to
`row_base + 10`, read a `u2le`, restore; otherwise `None` without reading. -/
def ofsNameFarAcc (rowBase : Nat) (a : ArtistRow) (s : KStream) : Option (Nat × KStream) :=
  if a.subtype = 100 then
    match readU2leK (seekK s (rowBase + 10)) with
    | none => none
    | some (v, s2) => some (v, seekK s2 s.pos)
  else none

/-- `ArtistRow.name`: save position, seek to `row_base + (ofs_name_far if
subtype == 100 else ofs_name_near)`, parse a `DeviceSqlString`, restore the
saved position. -/
def artistNameAcc (rowBase : Nat) (a : ArtistRow) (s : KStream) :
    Option (DeviceSqlStr × KStream) :=
  if a.subtype = 100 then
    match ofsNameFarAcc rowBase a s with
    | none => none
    | some (ofs, s1) =>
      match deviceSqlStringRead (seekK s1 (rowBase + ofs)) with
      | none => none
      | some (v, s2) => some (v, seekK s2 s.pos)
  else
    match deviceSqlStringRead (seekK s (rowBase + a.ofsNameNear)) with
    | none => none
    | some (v, s2) => some (v, seekK s2 s.pos)

/-- C10: each lazy accessor — `TrackRow.title`, `ArtistRow.name`,
`RowGroup.row_present_flags`, `RowRef.ofs_row` — returns with the stream
position equal to the position before the call (the saved position is
restored after the seek-and-read). -/
theorem C10_lazy_accessors_restore_pos :
    (∀ (rowBase : Nat) (t : TrackRow) (s : KStream) (v : DeviceSqlStr) (s' : KStream),
      trackTitleAcc rowBase t s = some (v, s') → s'.pos = s.pos) ∧
    (∀ (rowBase : Nat) (a : ArtistRow) (s : KStream) (v : DeviceSqlStr) (s' : KStream),
      artistNameAcc rowBase a s = some (v, s') → s'.pos = s.pos) ∧
    (∀ (lenPage g : Nat) (s : KStream) (v : Nat) (s' : KStream),
      rowPresentFlagsAcc lenPage g s = some (v, s') → s'.pos = s.pos) ∧
    (∀ (lenPage g i : Nat) (s : KStream) (v : Nat) (s' : KStream),
      ofsRowAcc lenPage g i s = some (v, s') → s'.pos = s.pos) := by
  refine ⟨?_, ?_, ?_, ?_⟩
  · intro rowBase t s v s' h
    unfold trackTitleAcc at h
    cases hd : deviceSqlStringRead (seekK s (rowBase + t.ofsStrings.getD 17 0)) with
    | none => rw [hd] at h; exact absurd h (by simp)
    | some p =>
      rw [hd] at h
      obtain ⟨v2, s2⟩ := p
      injection h with hp
      injection hp with hv hs
      rw [← hs]
      rfl
  · intro rowBase a s v s' h
    unfold artistNameAcc at h
    by_cases hsub : a.subtype = 100
    · rw [if_pos hsub] at h
      cases hfar : ofsNameFarAcc rowBase a s with
      | none => rw [hfar] at h; exact absurd h (by simp)
      | some pf =>
        rw [hfar] at h
        obtain ⟨ofs, s1⟩ := pf
        dsimp only at h
        cases hd : deviceSqlStringRead (seekK s1 (rowBase + ofs)) with
        | none => rw [hd] at h; exact absurd h (by simp)
        | some p =>
          rw [hd] at h
          obtain ⟨v2, s2⟩ := p
          injection h with hp
          injection hp with hv hs
          rw [← hs]
          rfl
    · rw [if_neg hsub] at h
      cases hd : deviceSqlStringRead (seekK s (rowBase + a.ofsNameNear)) with
      | none => rw [hd] at h; exact absurd h (by simp)
      | some p =>
        rw [hd] at h
        obtain ⟨v2, s2⟩ := p
        injection h with hp
        injection hp with hv hs
        rw [← hs]
        rfl
  · intro lenPage g s v s' h
    unfold rowPresentFlagsAcc at h
    cases hd : readU2leK (seekK s (rowGroupBase lenPage g - 4)) with
    | none => rw [hd] at h; exact absurd h (by simp)
    | some p =>
      rw [hd] at h
      obtain ⟨v2, s2⟩ := p
      injection h with hp
      injection hp with hv hs
      rw [← hs]
      rfl
  · intro lenPage g i s v s' h
    unfold ofsRowAcc at h
    cases hd : readU2leK (seekK s (rowGroupBase lenPage g - (6 + 2 * i))) with
    | none => rw [hd] at h; exact absurd h (by simp)
    | some p =>
      rw [hd] at h
      obtain ⟨v2, s2⟩ := p
      injection h with hp
      injection hp with hv hs
      rw [← hs]
      rfl

/-- C10 witness: each accessor applied to a concrete stream at position 7
(or 1) returns at the same position. -/
theorem C10_lazy_accessors_restore_pos_witness :
    (⟨[5, 65], 1⟩ : KStream).pos = 1 ∧
    (⟨[5, 65, 0], 1⟩ : KStream).pos = 1 ∧
    (⟨List.replicate 36 0, 7⟩ : KStream).pos = 7 ∧
    (⟨List.replicate 36 0, 7⟩ : KStream).pos = 7 := by
  refine ⟨?_, ?_, ?_, ?_⟩
  · have h := C10_lazy_accessors_restore_pos.1 0
      ⟨0, 0, 0, 0, 0, 0, 0, 0, 0, 0, 0, 0, 0, 0, 0, 0, 0, 0, 0, 0, 0, 0, 0, 0,
       List.replicate 21 0⟩
      ⟨[5, 65], 1⟩ ⟨5, DeviceSqlBody.shortAscii 2 [65]⟩ ⟨[5, 65], 1⟩ (by decide)
    exact h
  · have h := C10_lazy_accessors_restore_pos.2.1 0 ⟨96, 0, 0, 0⟩
      ⟨[5, 65, 0], 1⟩ ⟨5, DeviceSqlBody.shortAscii 2 [65]⟩ ⟨[5, 65, 0], 1⟩ (by decide)
    exact h
  · have h := C10_lazy_accessors_restore_pos.2.2.1 36 0
      ⟨List.replicate 36 0, 7⟩ 0 ⟨List.replicate 36 0, 7⟩ (by decide)
    exact h
  · have h := C10_lazy_accessors_restore_pos.2.2.2 36 0 1
      ⟨List.replicate 36 0, 7⟩ 0 ⟨List.replicate 36 0, 7⟩ (by decide)
    exact h

/-! ## Table walk (`AdvancedPDBParser.get_tracks`, `get_playlists`,
`get_playlist_entries`)

All three walkers share the loop: `current = table.first_page; while
current and current.index > 0: page = current.body; if page.is_data_page:
yield its present rows; current = page.next_page if page.next_page.index >
0 else None`.  There is no visited-page tracking or any other iteration
bound in the source.  A page is abstracted to its walk-relevant content:
the data-page flag, its `next_page` index, and the rows the walker would
yield from it.  `fuel` counts loop iterations the model is willing to
simulate: a `none` result means the loop is still running after `fuel`
iterations. -/

/-- Walk-relevant content of a parsed page. -/
structure PageNode where
  isData : Bool
  next : Nat
  rows : List Nat
deriving Repr, DecidableEq

/-- The shared page-chain loop, returning the list of visited page indices
and the concatenated yielded rows. -/
def tableWalk (pages : Nat → PageNode) : Nat → Nat → Option (List Nat × List Nat)
  | 0, _ => none
  | fuel + 1, cur =>
    if cur = 0 then some ([], [])
    else
      match tableWalk pages fuel
          (if (pages cur).next > 0 then (pages cur).next else 0) with
      | none => none
      | some (vs, rs) =>
        some (cur :: vs, (if (pages cur).isData then (pages cur).rows else []) ++ rs)

/-- A page chain: `first` names the head of `L`, each page maps to its
listed node, each node's `next` names the next listed page, and the last
node's `next` is 0. -/
def chainLinkedB (pages : Nat → PageNode) : Nat → List (Nat × PageNode) → Bool
  | first, [] => first == 0
  | first, (i, p) :: rest =>
    first == i && i != 0 && pages i == p && chainLinkedB pages p.next rest

/-- The rows a full chain walk should yield: the rows of its data pages,
in order. -/
def chainRows : List (Nat × PageNode) → List Nat
  | [] => []
  | (_, p) :: rest => (if p.isData then p.rows else []) ++ chainRows rest

/-- Two pages whose `next_page` indices point at each other. -/
def cyclicPages : Nat → PageNode := fun i =>
  if i = 1 then ⟨true, 2, [1]⟩
  else if i = 2 then ⟨true, 1, [2]⟩
  else ⟨true, 0, []⟩

theorem tableWalk_chain (pages : Nat → PageNode) :
    ∀ (L : List (Nat × PageNode)) (first fuel : Nat),
      chainLinkedB pages first L = true → L.length < fuel →
      tableWalk pages fuel first = some (L.map Prod.fst, chainRows L) := by
  intro L
  induction L with
  | nil =>
    intro first fuel hc hf
    simp only [chainLinkedB, beq_iff_eq] at hc
    obtain ⟨f, rfl⟩ : ∃ f, fuel = f + 1 := ⟨fuel - 1, by omega⟩
    subst hc
    rfl
  | cons hd tl ih =>
    obtain ⟨i, p⟩ := hd
    intro first fuel hc hf
    simp only [chainLinkedB, Bool.and_eq_true, beq_iff_eq, bne_iff_ne] at hc
    obtain ⟨⟨⟨h1, h2⟩, h3⟩, h4⟩ := hc
    obtain ⟨f, rfl⟩ : ∃ f, fuel = f + 1 := ⟨fuel - 1, by omega⟩
    subst h1
    have hnxt : (if (pages first).next > 0 then (pages first).next else 0) = p.next := by
      rw [h3]
      cases tl with
      | nil =>
        simp only [chainLinkedB, beq_iff_eq] at h4
        rw [h4]
        rfl
      | cons hd2 tl2 =>
        obtain ⟨j, q⟩ := hd2
        simp only [chainLinkedB, Bool.and_eq_true, beq_iff_eq, bne_iff_ne] at h4
        obtain ⟨⟨⟨hj, hj0⟩, _⟩, _⟩ := h4
        rw [if_pos (by omega)]
    unfold tableWalk
    rw [if_neg h2, hnxt, ih p.next f h4 (by simpa using Nat.lt_of_succ_lt_succ hf)]
    dsimp only
    rw [h3]
    rfl

theorem tableWalk_cyclic (fuel : Nat) :
    tableWalk cyclicPages fuel 1 = none ∧ tableWalk cyclicPages fuel 2 = none := by
  induction fuel with
  | zero => exact ⟨rfl, rfl⟩
  | succ f ih =>
    constructor
    · show tableWalk cyclicPages (f + 1) 1 = none
      unfold tableWalk
      rw [if_neg (by decide)]
      have h2 : (if (cyclicPages 1).next > 0 then (cyclicPages 1).next else 0) = 2 := by
        decide
      rw [h2, ih.2]
    · show tableWalk cyclicPages (f + 1) 2 = none
      unfold tableWalk
      rw [if_neg (by decide)]
      have h1 : (if (cyclicPages 2).next > 0 then (cyclicPages 2).next else 0) = 1 := by
        decide
      rw [h1, ih.1]

/-- C1: on a chain of distinct pages whose last `next_page` index is 0, the
walk terminates, visits exactly the chain's pages in order (each once,
since the index list is duplicate-free), and yields the data pages' rows in
order; but on the cyclic two-page configuration the walk never reaches its
termination condition for any iteration bound — the source loop has no
visited-page tracking, so the code loops forever on a cyclic `next_page`
chain instead of terminating as the claim requires. -/
theorem C1_table_walk_termination :
    (∀ (pages : Nat → PageNode) (L : List (Nat × PageNode)) (first fuel : Nat),
      chainLinkedB pages first L = true → (L.map Prod.fst).Nodup →
      L.length < fuel →
      tableWalk pages fuel first = some (L.map Prod.fst, chainRows L)) ∧
    (∀ fuel, tableWalk cyclicPages fuel 1 = none) :=
  ⟨fun pages L first fuel hc _ hf => tableWalk_chain pages L first fuel hc hf,
   fun fuel => (tableWalk_cyclic fuel).1⟩

/-- A concrete three-page chain 1 → 2 → 3 where page 2 is a non-data page. -/
def c1Pages : Nat → PageNode := fun i =>
  if i = 1 then ⟨true, 2, [10]⟩
  else if i = 2 then ⟨false, 3, [99]⟩
  else if i = 3 then ⟨true, 0, [20]⟩
  else ⟨true, 0, []⟩

/-- C1 witness: the chain part applied to the concrete chain 1 → 2 → 3
(page 2 non-data): the walk visits [1, 2, 3] and yields [10, 20]. -/
theorem C1_table_walk_termination_witness :
    tableWalk c1Pages 4 1 =
      some ([1, 2, 3], [10, 20]) := by
  have h := C1_table_walk_termination.1 c1Pages
    [(1, ⟨true, 2, [10]⟩), (2, ⟨false, 3, [99]⟩), (3, ⟨true, 0, [20]⟩)] 1 4
    (by decide) (by decide) (by decide)
  simpa using h

/-! ## Domain assembler (`AdvancedPDBParser.build_playlist_tree`,
`get_tracks_for_playlist`, and the `models.py` dataclasses)

Python dicts keyed by id are modelled as insertion-ordered association
lists with an upsert write (`d[k] = v`): an existing key is overwritten in
place, a new key is appended.  Python's stable `list.sort(key=...)` is
modelled as a stable insertion sort on the entry index.  `pathlib` path
joining and `str.lstrip("/")` are modelled textually. -/

/-- `PlaylistMetadata` (dataclass in `advanced_pdb_parser.py`). -/
structure PlaylistMetadata where
  id : Nat
  name : String
  parentId : Nat
  isFolder : Bool
  sortOrder : Nat
deriving Repr, DecidableEq

/-- `PlaylistEntry` (dataclass in `advanced_pdb_parser.py`). -/
structure PlaylistEntry where
  playlistId : Nat
  trackId : Nat
  entryIndex : Nat
deriving Repr, DecidableEq

/-- `TrackMetadata` (dataclass in `advanced_pdb_parser.py`).  The `bpm`
field holds `tempo / 100.0` in Python; the floating division is not
modelled — the field is carried opaquely. -/
structure TrackMetadata where
  id : Nat
  title : String
  artist : String
  album : String
  filePath : String
  filename : String
  duration : Option Nat
  bpm : Option Nat
  bitrate : Option Nat
  sampleRate : Option Nat
  fileSize : Option Nat
  year : Option Nat
  genre : Option String
  key : Option String
  rating : Option Nat
  playCount : Option Nat
deriving Repr, DecidableEq

/-- The `Track` dataclass of `models.py`: its init fields are `title`,
`artist`, `file_path`, `album`, `genre`, `year`, `bpm`, `key`, `duration`,
`bitrate`, `sample_rate`, `file_size`, `date_added`, `rating`, `comment`,
`cue_points` — note: no `filename` (that is a derived property) and no
`play_count`. -/
structure Track where
  title : String
  artist : String
  filePath : String
  album : Option String
  genre : Option String
  year : Option Nat
  bpm : Option Nat
  key : Option String
  duration : Option Nat
  bitrate : Option Nat
  sampleRate : Option Nat
  fileSize : Option Nat
  dateAdded : Option String
  rating : Option Nat
  comment : Option String
deriving Repr, DecidableEq

/-- The `Playlist` dataclass of `models.py` (`cue_points`-style defaults:
`parent_id` and `id` default to `None` and `build_playlist_tree` passes
only `name`, `tracks`, `is_folder`, `id`). -/
structure Playlist where
  name : String
  tracks : List Track
  isFolder : Bool
  parentId : Option Nat
  id : Option Nat
deriving Repr, DecidableEq

/-- The `PlaylistTree` dataclass of `models.py`: root playlists plus the
id-to-playlist dict. -/
structure PlaylistTree where
  rootPlaylists : List Playlist
  allPlaylists : List (Nat × Playlist)
deriving Repr, DecidableEq

/-- Dict write `d[k] = v` on an insertion-ordered association list. -/
def upsertA {α : Type} (m : List (Nat × α)) (k : Nat) (v : α) : List (Nat × α) :=
  if (m.lookup k).isSome then
    m.map (fun kv => if kv.1 = k then (k, v) else kv)
  else
    m ++ [(k, v)]

/-- `{track.id: track for track in tracks}` (later entries win). -/
def tracksLookupOf (tracks : List TrackMetadata) : List (Nat × TrackMetadata) :=
  tracks.foldl (fun m t => upsertA m t.id t) []

/-- One step of the entry-grouping loop: append the entry to its
playlist's list, creating the key on first sight. -/
def entriesMapAdd (m : List (Nat × List PlaylistEntry)) (e : PlaylistEntry) :
    List (Nat × List PlaylistEntry) :=
  match m.lookup e.playlistId with
  | some es => upsertA m e.playlistId (es ++ [e])
  | none => m ++ [(e.playlistId, [e])]

/-- Group entries by `playlist_id`, preserving encounter order. -/
def entriesMapOf (entries : List PlaylistEntry) : List (Nat × List PlaylistEntry) :=
  entries.foldl entriesMapAdd []

/-- Stable insertion of an entry into a list sorted by `entry_index`. -/
def insertSortedByIdx (e : PlaylistEntry) : List PlaylistEntry → List PlaylistEntry
  | [] => [e]
  | x :: xs =>
    if x.entryIndex ≤ e.entryIndex then x :: insertSortedByIdx e xs
    else e :: x :: xs

/-- Python's stable `list.sort(key=lambda e: e.entry_index)`. -/
def sortByEntryIndex (es : List PlaylistEntry) : List PlaylistEntry :=
  es.foldr insertSortedByIdx []

/-- Sort every group of the entries map by `entry_index`. -/
def sortedEntriesMap (m : List (Nat × List PlaylistEntry)) :
    List (Nat × List PlaylistEntry) :=
  m.map (fun kv => (kv.1, sortByEntryIndex kv.2))

/-- `str.lstrip("/")`: strip all leading slashes. -/
def lstripSlash (p : String) : String :=
  String.mk (p.toList.dropWhile (fun c => c = '/'))

/-- `pathlib` `usb_path / rel`, modelled textually. -/
def pathJoin (a b : String) : String := a ++ "/" ++ b

/-- The keyword-argument names `build_playlist_tree` passes to the `Track`
constructor. -/
def trackCallKwargNames : List String :=
  ["title", "artist", "album", "file_path", "filename", "duration", "bpm",
   "bitrate", "sample_rate", "file_size", "year", "rating", "play_count"]

/-- The init-field names of the `Track` dataclass in `models.py`. -/
def trackInitFieldNames : List String :=
  ["title", "artist", "file_path", "album", "genre", "year", "bpm", "key",
   "duration", "bitrate", "sample_rate", "file_size", "date_added", "rating",
   "comment", "cue_points"]

/-- The `Track(...)` constructor call in `build_playlist_tree`: a dataclass
call with a keyword argument that is not an init field raises `TypeError`
(`none`); otherwise it would build the record shown in the `some` branch
(`artist`/`album` fall back to the "Unknown" strings on empty input, the
file path is the USB path joined with the lstripped relative path). -/
def mkTrackFromMeta (usbPath : String) (m : TrackMetadata) : Option Track :=
  if trackCallKwargNames.all (fun k => trackInitFieldNames.contains k) then
    some ⟨m.title,
          (if m.artist = "" then "Unknown Artist" else m.artist),
          pathJoin usbPath (lstripSlash m.filePath),
          some (if m.album = "" then "Unknown Album" else m.album),
          none, m.year, m.bpm, none, m.duration, m.bitrate, m.sampleRate,
          m.fileSize, none, m.rating, none⟩
  else none

/-- The per-playlist track assembly loop: an entry whose `track_id` has no
decoded track is skipped silently; a resolvable entry constructs a `Track`
(which raises, see `mkTrackFromMeta`). -/
def buildPlaylistTracks (usbPath : String) (lookup : List (Nat × TrackMetadata)) :
    List PlaylistEntry → Option (List Track)
  | [] => some []
  | e :: rest =>
    match lookup.lookup e.trackId with
    | none => buildPlaylistTracks usbPath lookup rest
    | some tm =>
      match mkTrackFromMeta usbPath tm with
      | none => none
      | some t =>
        match buildPlaylistTracks usbPath lookup rest with
        | none => none
        | some ts => some (t :: ts)

/-- The main loop of `build_playlist_tree` over the decoded playlists:
build the playlist's track list, store the playlist under its id, and
append it to the roots exactly when `parent_id == 0`. -/
def buildLoop (usbPath : String) (lookup : List (Nat × TrackMetadata))
    (em : List (Nat × List PlaylistEntry)) :
    List PlaylistMetadata → List (Nat × Playlist) → List Playlist →
      Option PlaylistTree
  | [], all, roots => some ⟨roots, all⟩
  | m :: rest, all, roots =>
    match buildPlaylistTracks usbPath lookup ((em.lookup m.id).getD []) with
    | none => none
    | some ptracks =>
      buildLoop usbPath lookup em rest
        (upsertA all m.id ⟨m.name, ptracks, m.isFolder, none, some m.id⟩)
        (if m.parentId = 0 then
          roots ++ [⟨m.name, ptracks, m.isFolder, none, some m.id⟩]
        else roots)

/-- `AdvancedPDBParser.build_playlist_tree`. -/
def buildPlaylistTree (usbPath : String) (playlists : List PlaylistMetadata)
    (entries : List PlaylistEntry) (tracks : List TrackMetadata) :
    Option PlaylistTree :=
  buildLoop usbPath (tracksLookupOf tracks) (sortedEntriesMap (entriesMapOf entries))
    playlists [] []

/-- Python `str.upper()` restricted to its ASCII action (the lowercase
letters `a`-`z` are mapped to `A`-`Z`; all other characters are kept). -/
def upperAscii (s : String) : String :=
  String.mk (s.toList.map (fun c =>
    if c.toNat ≥ 97 ∧ c.toNat ≤ 122 then Char.ofNat (c.toNat - 32) else c))

/-- `AdvancedPDBParser.get_tracks_for_playlist`: find the playlist by
case-insensitive name, filter its entries, sort them by `entry_index`, and
map each entry with a known `track_id` to its track metadata (unknown ids
are dropped). -/
def getTracksForPlaylist (playlists : List PlaylistMetadata)
    (tracks : List TrackMetadata) (entries : List PlaylistEntry)
    (name : String) : List TrackMetadata :=
  match playlists.find? (fun p => upperAscii p.name = upperAscii name) with
  | none => []
  | some target =>
    (sortByEntryIndex (entries.filter (fun e => e.playlistId = target.id))).filterMap
      (fun e => (tracksLookupOf tracks).lookup e.trackId)

theorem lookup_append_isSome {α : Type} (l1 l2 : List (Nat × α)) (k : Nat) :
    (((l1 ++ l2).lookup k).isSome) =
      ((l1.lookup k).isSome || (l2.lookup k).isSome) := by
  induction l1 with
  | nil => simp
  | cons kv rest ih =>
    obtain ⟨a, b⟩ := kv
    cases hab : (k == a) <;> simp [List.lookup, hab, ih]

theorem lookup_mapUpsert_isSome {α : Type} (k : Nat) (v : α) (m : List (Nat × α))
    (k' : Nat) :
    (((m.map (fun kv => if kv.1 = k then (k, v) else kv)).lookup k').isSome) =
      ((m.lookup k').isSome) := by
  induction m with
  | nil => rfl
  | cons kv rest ih =>
    obtain ⟨a, b⟩ := kv
    by_cases hak : a = k
    · subst hak
      rw [List.map_cons,
        show (if (a, b).1 = a then (a, v) else (a, b)) = (a, v) from by simp]
      cases hab : (k' == a) <;> simp [List.lookup, hab, ih]
    · rw [List.map_cons,
        show (if (a, b).1 = k then (k, v) else (a, b)) = (a, b) from by simp [hak]]
      cases hab : (k' == a) <;> simp [List.lookup, hab, ih]

theorem lookup_upsertA_isSome {α : Type} (m : List (Nat × α)) (k k' : Nat) (v : α) :
    (((upsertA m k v).lookup k').isSome) = ((k' == k) || (m.lookup k').isSome) := by
  unfold upsertA
  by_cases hs : (m.lookup k).isSome
  · rw [if_pos hs, lookup_mapUpsert_isSome]
    cases hkk : (k' == k)
    · simp
    · have he : k' = k := by simpa using hkk
      subst he
      simp [hs]
  · rw [if_neg hs, lookup_append_isSome]
    have h1 : (([(k, v)] : List (Nat × α)).lookup k').isSome = (k' == k) := by
      cases h : (k' == k) <;> simp [List.lookup, h]
    rw [h1, Bool.or_comm]

theorem buildLoop_partial_inv (usbPath : String)
    (lookup : List (Nat × TrackMetadata)) (em : List (Nat × List PlaylistEntry)) :
    ∀ (ms : List PlaylistMetadata) (all : List (Nat × Playlist))
      (roots : List Playlist) (tree : PlaylistTree),
      buildLoop usbPath lookup em ms all roots = some tree →
      (∀ k, (all.lookup k).isSome → (tree.allPlaylists.lookup k).isSome) ∧
      (∀ m ∈ ms, (tree.allPlaylists.lookup m.id).isSome) ∧
      (∀ pl ∈ roots, pl ∈ tree.rootPlaylists) ∧
      (∀ m ∈ ms, m.parentId = 0 →
        ∃ pl ∈ tree.rootPlaylists, pl.id = some m.id ∧ pl.name = m.name) ∧
      (∀ pl ∈ tree.rootPlaylists,
        pl ∈ roots ∨ ∃ m ∈ ms, m.parentId = 0 ∧ pl.id = some m.id ∧ pl.name = m.name) := by
  intro ms
  induction ms with
  | nil =>
    intro all roots tree hb
    have htree : tree = ⟨roots, all⟩ := by
      unfold buildLoop at hb
      injection hb with h
      exact h.symm
    subst htree
    exact ⟨fun k hk => hk, by simp, fun pl hpl => hpl, by simp,
           fun pl hpl => Or.inl hpl⟩
  | cons m rest ih =>
    intro all roots tree hb
    unfold buildLoop at hb
    cases ht : buildPlaylistTracks usbPath lookup ((em.lookup m.id).getD []) with
    | none => rw [ht] at hb; exact absurd hb (by simp)
    | some ptracks =>
      rw [ht] at hb
      dsimp only at hb
      obtain ⟨inv1, inv2, inv3, inv4, inv5⟩ := ih _ _ tree hb
      refine ⟨?_, ?_, ?_, ?_, ?_⟩
      · intro k hk
        exact inv1 k (by rw [lookup_upsertA_isSome]; simp [hk])
      · intro m' hm'
        rcases List.mem_cons.mp hm' with he | hm'
        · subst he
          exact inv1 m'.id (by rw [lookup_upsertA_isSome]; simp)
        · exact inv2 m' hm'
      · intro pl hpl
        apply inv3
        by_cases hpar : m.parentId = 0
        · rw [if_pos hpar]
          exact List.mem_append_left _ hpl
        · rw [if_neg hpar]
          exact hpl
      · intro m' hm' hpar'
        rcases List.mem_cons.mp hm' with he | hm'
        · subst he
          refine ⟨⟨m'.name, ptracks, m'.isFolder, none, some m'.id⟩, inv3 _ ?_, rfl, rfl⟩
          rw [if_pos hpar']
          exact List.mem_append_right _ (by simp)
        · exact inv4 m' hm' hpar'
      · intro pl hpl
        rcases inv5 pl hpl with hin | ⟨m', hm', h0, hid, hname⟩
        · by_cases hpar : m.parentId = 0
          · rw [if_pos hpar] at hin
            rcases List.mem_append.mp hin with h | h
            · exact Or.inl h
            · right
              refine ⟨m, List.mem_cons_self m rest, hpar, ?_, ?_⟩
              · rw [show pl = ⟨m.name, ptracks, m.isFolder, none, some m.id⟩ from by
                  simpa using h]
              · rw [show pl = ⟨m.name, ptracks, m.isFolder, none, some m.id⟩ from by
                  simpa using h]
          · rw [if_neg hpar] at hin
            exact Or.inl hin
        · right
          exact ⟨m', List.mem_cons_of_mem _ hm', h0, hid, hname⟩

/-- C3 counterexample: a single playlist with the dangling non-zero
`parent_id` 99 (no decoded playlist has id 99) builds a tree whose
`root_playlists` is empty — the playlist is not treated as a root (and the
returned `PlaylistTree` carries no anomaly report), contradicting the
claim; it does remain in `all_playlists`. -/
theorem C3_counterexample :
    buildPlaylistTree "" [⟨5, "X", 99, false, 0⟩] [] [] =
      some ⟨[], [(5, ⟨"X", [], false, none, some 5⟩)]⟩ ∧
    (99 : Nat) ≠ 0 ∧
    (¬ ∃ m ∈ ([⟨5, "X", 99, false, 0⟩] : List PlaylistMetadata), m.id = 99) := by
  refine ⟨by rfl, by decide, by decide⟩

/-- C3 (amended): whenever `build_playlist_tree` returns, every decoded
playlist's id is present in `all_playlists` (never silently dropped), every
playlist with `parent_id == 0` appears in `root_playlists`, and every root
comes from a playlist with `parent_id == 0` — so a playlist whose non-zero
`parent_id` resolves to no decoded playlist is tolerated (kept in
`all_playlists`, no crash) but is NOT added to `root_playlists`, and no
structural anomaly is reported. -/
theorem C3_playlist_tree_tolerance (usbPath : String)
    (playlists : List PlaylistMetadata) (entries : List PlaylistEntry)
    (tracks : List TrackMetadata) (tree : PlaylistTree)
    (hb : buildPlaylistTree usbPath playlists entries tracks = some tree) :
    (∀ m ∈ playlists, (tree.allPlaylists.lookup m.id).isSome) ∧
    (∀ m ∈ playlists, m.parentId = 0 →
      ∃ pl ∈ tree.rootPlaylists, pl.id = some m.id ∧ pl.name = m.name) ∧
    (∀ pl ∈ tree.rootPlaylists,
      ∃ m ∈ playlists, m.parentId = 0 ∧ pl.id = some m.id ∧ pl.name = m.name) := by
  unfold buildPlaylistTree at hb
  obtain ⟨_, inv2, _, inv4, inv5⟩ :=
    buildLoop_partial_inv usbPath (tracksLookupOf tracks)
      (sortedEntriesMap (entriesMapOf entries)) playlists [] [] tree hb
  refine ⟨inv2, inv4, ?_⟩
  intro pl hpl
  rcases inv5 pl hpl with h | h
  · exact absurd h (List.not_mem_nil pl)
  · exact h

/-- Playlists for the C3 witness: a true root and a dangling-parent
playlist. -/
def c3WitnessPlaylists : List PlaylistMetadata :=
  [⟨1, "R", 0, false, 0⟩, ⟨5, "X", 99, false, 0⟩]

/-- The tree `build_playlist_tree` produces for `c3WitnessPlaylists`. -/
def c3WitnessTree : PlaylistTree :=
  ⟨[⟨"R", [], false, none, some 1⟩],
   [(1, ⟨"R", [], false, none, some 1⟩), (5, ⟨"X", [], false, none, some 5⟩)]⟩

/-- C3 witness: the tolerance theorem applied to the concrete two-playlist
input (root id 1 and dangling-parent id 5). -/
theorem C3_playlist_tree_tolerance_witness :
    (∀ m ∈ c3WitnessPlaylists, (c3WitnessTree.allPlaylists.lookup m.id).isSome) ∧
    (∀ m ∈ c3WitnessPlaylists, m.parentId = 0 →
      ∃ pl ∈ c3WitnessTree.rootPlaylists, pl.id = some m.id ∧ pl.name = m.name) ∧
    (∀ pl ∈ c3WitnessTree.rootPlaylists,
      ∃ m ∈ c3WitnessPlaylists, m.parentId = 0 ∧ pl.id = some m.id ∧ pl.name = m.name) :=
  C3_playlist_tree_tolerance "" c3WitnessPlaylists [] [] c3WitnessTree (by rfl)

/-- Track metadata for the C7 concrete playlist (ids 101, 102, 103). -/
def c7TrackA : TrackMetadata :=
  ⟨101, "A", "", "", "", "", none, none, none, none, none, none, none, none, none, none⟩

/-- Track B. -/
def c7TrackB : TrackMetadata :=
  ⟨102, "B", "", "", "", "", none, none, none, none, none, none, none, none, none, none⟩

/-- Track C. -/
def c7TrackC : TrackMetadata :=
  ⟨103, "C", "", "", "", "", none, none, none, none, none, none, none, none, none, none⟩

/-- The single playlist of the C7 example. -/
def c7Playlists : List PlaylistMetadata := [⟨1, "P1", 0, false, 0⟩]

/-- The C7 entries: `[(entry_index=2, A), (entry_index=0, B),
(entry_index=1, C)]` plus one entry whose `track_id` 999 matches no track. -/
def c7Entries : List PlaylistEntry :=
  [⟨1, 101, 2⟩, ⟨1, 102, 0⟩, ⟨1, 103, 1⟩, ⟨1, 999, 3⟩]

/-- The decoded tracks of the C7 example. -/
def c7Tracks : List TrackMetadata := [c7TrackA, c7TrackB, c7TrackC]

/-- C7: the assembly order the claim describes is exactly what sorting by
`entry_index` and dropping unknown track ids produces — proved on
`get_tracks_for_playlist`, which yields `[B, C, A]` —, but
`build_playlist_tree` itself crashes on this very input: as soon as one
entry resolves, it calls `Track(...)` with the keyword arguments
`filename` and `play_count`, which the `models.Track` dataclass does not
declare, so the build raises `TypeError` (modelled as `none`) instead of
returning the assembled playlist. -/
theorem C7_playlist_track_order :
    mkTrackFromMeta "" c7TrackA = none ∧
    buildPlaylistTree "" c7Playlists c7Entries c7Tracks = none ∧
    sortByEntryIndex (c7Entries.filter (fun e => e.playlistId = 1)) =
      [⟨1, 102, 0⟩, ⟨1, 103, 1⟩, ⟨1, 101, 2⟩, ⟨1, 999, 3⟩] ∧
    getTracksForPlaylist c7Playlists c7Tracks c7Entries "P1" =
      [c7TrackB, c7TrackC, c7TrackA] := by
  refine ⟨by rfl, by rfl, by rfl, by rfl⟩

/-! ## Analysis (ANLZ) file (`rekordbox_anlz.py`)

The tag-length-value section stream of the per-track analysis file.  All
multi-byte integers are big-endian.  The song-structure section is
special: its raw body may be XOR-masked, detected by peeking the `mood`
field, and the generated code builds the 19-byte key with
`struct.pack('19b', 203 + c, ...)` — a SIGNED byte format whose legal
range is -128..127, so the pack raises `struct.error` for every entry
count `c` (203 + c ≥ 203).  `packSignedByte` models that range check. -/

/-- UTF-16BE decoding to 16-bit code units; odd byte counts fail. -/
def utf16beUnits : List Nat → Option (List Nat)
  | [] => some []
  | [_] => none
  | a :: b :: rest =>
    match utf16beUnits rest with
    | none => none
    | some us => some ((a * 256 + b) :: us)

/-- Pure 16-bit big-endian read at an absolute offset of a buffer. -/
def u16beAt (data : List Nat) (i : Nat) : Option Nat :=
  match data[i]?, data[i + 1]? with
  | some a, some b => some (a * 256 + b)
  | _, _ => none

/-- `KaitaiStream.process_xor_many`: XOR the data with the key, cycling
the key. -/
def xorMany (data key : List Nat) : List Nat :=
  (data.zip (List.range data.length)).map
    (fun p => p.1 ^^^ key.getD (p.2 % key.length) 0)

/-- `struct.pack('b', v)`: a signed byte; values outside -128..127 raise
`struct.error`. -/
def packSignedByte (v : Int) : Option Nat :=
  if -128 ≤ v ∧ v ≤ 127 then some ((v % 256).toNat) else none

/-- The 19 mask-byte expressions of `SongStructureTag.mask`, each offset
by the entry count `c`. -/
def songStructureMaskVals (c : Nat) : List Int :=
  [203 + (c : Int), 225 + (c : Int), 238 + (c : Int), 250 + (c : Int),
   229 + (c : Int), 238 + (c : Int), 173 + (c : Int), 238 + (c : Int),
   233 + (c : Int), 210 + (c : Int), 233 + (c : Int), 235 + (c : Int),
   225 + (c : Int), 233 + (c : Int), 243 + (c : Int), 232 + (c : Int),
   233 + (c : Int), 244 + (c : Int), 225 + (c : Int)]

/-- Pack a list of signed-byte values, failing if any is out of range. -/
def packAll : List Int → Option (List Nat)
  | [] => some []
  | v :: vs =>
    match packSignedByte v with
    | none => none
    | some b =>
      match packAll vs with
      | none => none
      | some bs => some (b :: bs)

/-- `SongStructureTag.mask`: `struct.pack('19b', 203 + c, ...)`. -/
def songStructureMask (c : Nat) : Option (List Nat) :=
  packAll (songStructureMaskVals c)

/-- The 19-byte key the format documentation intends (the mask byte table
reduced modulo 256); used to demonstrate what the masking described by the
claim produces on the failing input. -/
def songStructureMaskIntended (c : Nat) : List Nat :=
  (songStructureMaskVals c).map (fun v => (v % 256).toNat)

/-- One song-structure phrase entry (`SongStructureEntry._read`). -/
structure SongStructureEntry where
  index : Nat
  beat : Nat
  kind : Nat
  k1 : Nat
  k2 : Nat
  b : Nat
  beat2 : Nat
  beat3 : Nat
  beat4 : Nat
  k3 : Nat
  fill : Nat
  beatFill : Nat
deriving Repr, DecidableEq

/-- `SongStructureEntry._read`: all phrase-kind variants read a `u2be`, so
the `kind` dispatch on the parent mood is byte-identical. -/
def songStructureEntryRead (s0 : KStream) : Option (SongStructureEntry × KStream) :=
  match readU2beK s0 with
  | none => none
  | some (index, s) =>
  match readU2beK s with
  | none => none
  | some (beat, s) =>
  match readU2beK s with
  | none => none
  | some (kind, s) =>
  match readBytesK 1 s with
  | none => none
  | some (_, s) =>
  match readU1K s with
  | none => none
  | some (k1, s) =>
  match readBytesK 1 s with
  | none => none
  | some (_, s) =>
  match readU1K s with
  | none => none
  | some (k2, s) =>
  match readBytesK 1 s with
  | none => none
  | some (_, s) =>
  match readU1K s with
  | none => none
  | some (b, s) =>
  match readU2beK s with
  | none => none
  | some (beat2, s) =>
  match readU2beK s with
  | none => none
  | some (beat3, s) =>
  match readU2beK s with
  | none => none
  | some (beat4, s) =>
  match readBytesK 1 s with
  | none => none
  | some (_, s) =>
  match readU1K s with
  | none => none
  | some (k3, s) =>
  match readBytesK 1 s with
  | none => none
  | some (_, s) =>
  match readU1K s with
  | none => none
  | some (fill, s) =>
  match readU2beK s with
  | none => none
  | some (beatFill, s) =>
  some (⟨index, beat, kind, k1, k2, b, beat2, beat3, beat4, k3, fill, beatFill⟩, s)

/-- Read `n` song-structure entries. -/
def songStructureEntryList : Nat → KStream → Option (List SongStructureEntry × KStream)
  | 0, s => some ([], s)
  | n + 1, s =>
    match songStructureEntryRead s with
    | none => none
    | some (e, s1) =>
      match songStructureEntryList n s1 with
      | none => none
      | some (es, s2) => some (e :: es, s2)

/-- `SongStructureBody._read`: `mood:u2be`, 6 unknown bytes,
`end_beat:u2be`, 2 unknown bytes, `raw_bank:u1`, 1 unknown byte, then
`len_entries` phrase entries. -/
structure SongStructureBody where
  mood : Nat
  endBeat : Nat
  rawBank : Nat
  entries : List SongStructureEntry
deriving Repr, DecidableEq

/-- Parse a (possibly unmasked) song-structure body from its byte list. -/
def songStructureBodyRead (lenEntries : Nat) (bytes : List Nat) :
    Option SongStructureBody :=
  match readU2beK ⟨bytes, 0⟩ with
  | none => none
  | some (mood, s) =>
  match readBytesK 6 s with
  | none => none
  | some (_, s) =>
  match readU2beK s with
  | none => none
  | some (endBeat, s) =>
  match readBytesK 2 s with
  | none => none
  | some (_, s) =>
  match readU1K s with
  | none => none
  | some (rawBank, s) =>
  match readBytesK 1 s with
  | none => none
  | some (_, s) =>
  match songStructureEntryList lenEntries s with
  | none => none
  | some (entries, _) => some ⟨mood, endBeat, rawBank, entries⟩

/-- A parsed song-structure section. -/
structure SongStructureVal where
  lenEntryBytes : Nat
  lenEntries : Nat
  rawMood : Nat
  isMasked : Bool
  body : SongStructureBody
deriving Repr, DecidableEq

/-- `SongStructureTag._read`: `len_entry_bytes:u4be`, `len_entries:u2be`,
the remaining bytes as the raw body; `raw_mood` is peeked as the `u2be` at
absolute offset 6 of the section substream, `is_masked` is `raw_mood >
20`, and the raw body is XORed with the mask (whose construction raises,
see `songStructureMask`) when masked or with `b"\x00"` when not, then
parsed as a `SongStructureBody`. -/
def songStructureTagRead (sectionBody : List Nat) : Option SongStructureVal :=
  match readU4beK ⟨sectionBody, 0⟩ with
  | none => none
  | some (lenEntryBytes, s) =>
  match readU2beK s with
  | none => none
  | some (lenEntries, s) =>
  match u16beAt sectionBody 6 with
  | none => none
  | some rawMood =>
    match (if rawMood > 20 then songStructureMask lenEntries else some [0]) with
    | none => none
    | some key =>
      match songStructureBodyRead lenEntries (xorMany (readBytesFullK s).1 key) with
      | none => none
      | some body =>
        some ⟨lenEntryBytes, lenEntries, rawMood, rawMood > 20, body⟩

/-- One beat of a beat grid (`BeatGridBeat._read`). -/
structure BeatGridBeat where
  beatNumber : Nat
  tempo : Nat
  time : Nat
deriving Repr, DecidableEq

/-- `BeatGridBeat._read`. -/
def beatGridBeatRead (s0 : KStream) : Option (BeatGridBeat × KStream) :=
  match readU2beK s0 with
  | none => none
  | some (beatNumber, s) =>
  match readU2beK s with
  | none => none
  | some (tempo, s) =>
  match readU4beK s with
  | none => none
  | some (time, s) =>
  some (⟨beatNumber, tempo, time⟩, s)

/-- Read `n` beats. -/
def beatGridBeatList : Nat → KStream → Option (List BeatGridBeat × KStream)
  | 0, s => some ([], s)
  | n + 1, s =>
    match beatGridBeatRead s with
    | none => none
    | some (e, s1) =>
      match beatGridBeatList n s1 with
      | none => none
      | some (es, s2) => some (e :: es, s2)

/-- A plain cue entry (`CueEntry._read`). -/
structure CueEntry where
  hotCue : Nat
  status : Nat
  orderFirst : Nat
  orderLast : Nat
  typ : Nat
  time : Nat
  loopTime : Nat
deriving Repr, DecidableEq

/-- `CueEntry._read`: `PCPT` magic, header/entry lengths, fields, 16
trailing unknown bytes. -/
def cueEntryRead (s0 : KStream) : Option (CueEntry × KStream) :=
  match readBytesK 4 s0 with
  | none => none
  | some (magic, s) =>
  if magic = [80, 67, 80, 84] then
    match readU4beK s with
    | none => none
    | some (_, s) =>
    match readU4beK s with
    | none => none
    | some (_, s) =>
    match readU4beK s with
    | none => none
    | some (hotCue, s) =>
    match readU4beK s with
    | none => none
    | some (status, s) =>
    match readU4beK s with
    | none => none
    | some (_, s) =>
    match readU2beK s with
    | none => none
    | some (orderFirst, s) =>
    match readU2beK s with
    | none => none
    | some (orderLast, s) =>
    match readU1K s with
    | none => none
    | some (typ, s) =>
    match readBytesK 3 s with
    | none => none
    | some (_, s) =>
    match readU4beK s with
    | none => none
    | some (time, s) =>
    match readU4beK s with
    | none => none
    | some (loopTime, s) =>
    match readBytesK 16 s with
    | none => none
    | some (_, s) =>
    some (⟨hotCue, status, orderFirst, orderLast, typ, time, loopTime⟩, s)
  else none

/-- Read `n` cue entries. -/
def cueEntryList : Nat → KStream → Option (List CueEntry × KStream)
  | 0, s => some ([], s)
  | n + 1, s =>
    match cueEntryRead s with
    | none => none
    | some (e, s1) =>
      match cueEntryList n s1 with
      | none => none
      | some (es, s2) => some (e :: es, s2)

/-- An extended (nxs2) cue entry (`CueExtendedEntry._read`). -/
structure CueExtendedEntry where
  hotCue : Nat
  typ : Nat
  time : Nat
  loopTime : Nat
  colorId : Nat
  loopNumerator : Nat
  loopDenominator : Nat
  lenComment : Nat
  comment : List Nat
  colorCode : Option Nat
  colorRed : Option Nat
  colorGreen : Option Nat
  colorBlue : Option Nat
deriving Repr, DecidableEq

/-- `CueExtendedEntry._read`: `PCP2` magic and fixed fields; when
`len_entry ≤ 43` the source later dereferences the never-assigned
`len_comment` attribute and raises `AttributeError` (`none` here); the
trailing color bytes are guarded by `len_entry - len_comment` thresholds
(Python int arithmetic, so modelled on `Int`). -/
def cueExtendedEntryRead (s0 : KStream) : Option (CueExtendedEntry × KStream) :=
  match readBytesK 4 s0 with
  | none => none
  | some (magic, s) =>
  if magic = [80, 67, 80, 50] then
    match readU4beK s with
    | none => none
    | some (_, s) =>
    match readU4beK s with
    | none => none
    | some (lenEntry, s) =>
    match readU4beK s with
    | none => none
    | some (hotCue, s) =>
    match readU1K s with
    | none => none
    | some (typ, s) =>
    match readBytesK 3 s with
    | none => none
    | some (_, s) =>
    match readU4beK s with
    | none => none
    | some (time, s) =>
    match readU4beK s with
    | none => none
    | some (loopTime, s) =>
    match readU1K s with
    | none => none
    | some (colorId, s) =>
    match readBytesK 7 s with
    | none => none
    | some (_, s) =>
    match readU2beK s with
    | none => none
    | some (loopNumerator, s) =>
    match readU2beK s with
    | none => none
    | some (loopDenominator, s) =>
    if lenEntry > 43 then
      match readU4beK s with
      | none => none
      | some (lenComment, s) =>
      match readBytesK lenComment s with
      | none => none
      | some (commentBytes, s) =>
      match utf16beUnits commentBytes with
      | none => none
      | some comment =>
      match (if (lenEntry : Int) - lenComment > 44 then
          (readU1K s).map (fun r => (some r.1, r.2))
        else some (none, s)) with
      | none => none
      | some (colorCode, s) =>
      match (if (lenEntry : Int) - lenComment > 45 then
          (readU1K s).map (fun r => (some r.1, r.2))
        else some (none, s)) with
      | none => none
      | some (colorRed, s) =>
      match (if (lenEntry : Int) - lenComment > 46 then
          (readU1K s).map (fun r => (some r.1, r.2))
        else some (none, s)) with
      | none => none
      | some (colorGreen, s) =>
      match (if (lenEntry : Int) - lenComment > 47 then
          (readU1K s).map (fun r => (some r.1, r.2))
        else some (none, s)) with
      | none => none
      | some (colorBlue, s) =>
      match (if (lenEntry : Int) - lenComment > 48 then
          (readBytesK (lenEntry - 48 - lenComment) s).map (fun r => ((), r.2))
        else some ((), s)) with
      | none => none
      | some (_, s) =>
      some (⟨hotCue, typ, time, loopTime, colorId, loopNumerator, loopDenominator,
             lenComment, comment, colorCode, colorRed, colorGreen, colorBlue⟩, s)
    else none
  else none

/-- Read `n` extended cue entries. -/
def cueExtendedEntryList : Nat → KStream → Option (List CueExtendedEntry × KStream)
  | 0, s => some ([], s)
  | n + 1, s =>
    match cueExtendedEntryRead s with
    | none => none
    | some (e, s1) =>
      match cueExtendedEntryList n s1 with
      | none => none
      | some (es, s2) => some (e :: es, s2)

/-- Read `n` consecutive `u4be` values (the VBR index loop). -/
def readU4beList : Nat → KStream → Option (List Nat × KStream)
  | 0, s => some ([], s)
  | n + 1, s =>
    match readU4beK s with
    | none => none
    | some (v, s1) =>
      match readU4beList n s1 with
      | none => none
      | some (vs, s2) => some (v :: vs, s2)

/-- The typed body of a tagged section (one constructor per branch of the
`TaggedSection._read` dispatch; an unrecognized fourcc keeps the raw body
as an opaque blob). -/
inductive AnlzBody where
  | waveColorScroll (lenEntryBytes lenEntries unknown : Nat) (entries : List Nat)
  | waveScroll (lenEntryBytes lenEntries unknown : Nat) (entries : List Nat)
  | vbr (unknown : Nat) (index : List Nat)
  | wave3bandScroll (lenEntryBytes lenEntries unknown : Nat) (entries : List Nat)
  | cues2 (typ numCues : Nat) (cues : List CueExtendedEntry)
  | cues (typ numCues memoryCount : Nat) (cueList : List CueEntry)
  | songStructure (v : SongStructureVal)
  | beatGrid (u0 u1 numBeats : Nat) (beats : List BeatGridBeat)
  | wavePreview (lenData unknown : Nat) (body : Option (List Nat))
  | wave3bandPreview (lenEntryBytes lenEntries : Nat) (entries : List Nat)
  | waveColorPreview (lenEntryBytes lenEntries unknown : Nat) (entries : List Nat)
  | path (lenPath : Nat) (body : Option (List Nat))
  | unknownTag (blob : List Nat)
deriving Repr, DecidableEq

/-- The three-`u4be`-header wave tag shape (`WaveColorScrollTag`,
`WaveScrollTag`, `Wave3bandScrollTag`, `WaveColorPreviewTag` all read
`len_entry_bytes`, `len_entries`, one unknown `u4be`, then
`len_entries * len_entry_bytes` bytes). -/
def waveTripleRead (raw : List Nat) : Option (Nat × Nat × Nat × List Nat) :=
  match readU4beK ⟨raw, 0⟩ with
  | none => none
  | some (lenEntryBytes, s) =>
  match readU4beK s with
  | none => none
  | some (lenEntries, s) =>
  match readU4beK s with
  | none => none
  | some (unknown, s) =>
  match readBytesK (lenEntries * lenEntryBytes) s with
  | none => none
  | some (entries, _) => some (lenEntryBytes, lenEntries, unknown, entries)

/-- `Wave3bandPreviewTag._read`: two `u4be` fields then the entry bytes. -/
def wave3bandPreviewRead (raw : List Nat) : Option (Nat × Nat × List Nat) :=
  match readU4beK ⟨raw, 0⟩ with
  | none => none
  | some (lenEntryBytes, s) =>
  match readU4beK s with
  | none => none
  | some (lenEntries, s) =>
  match readBytesK (lenEntries * lenEntryBytes) s with
  | none => none
  | some (entries, _) => some (lenEntryBytes, lenEntries, entries)

/-- `VbrTag._read`: one unknown `u4be` then 400 `u4be` index values. -/
def vbrRead (raw : List Nat) : Option (Nat × List Nat) :=
  match readU4beK ⟨raw, 0⟩ with
  | none => none
  | some (unknown, s) =>
  match readU4beList 400 s with
  | none => none
  | some (index, _) => some (unknown, index)

/-- `CueTag._read`. -/
def cueTagRead (raw : List Nat) : Option (Nat × Nat × Nat × List CueEntry) :=
  match readU4beK ⟨raw, 0⟩ with
  | none => none
  | some (typ, s) =>
  match readBytesK 2 s with
  | none => none
  | some (_, s) =>
  match readU2beK s with
  | none => none
  | some (numCues, s) =>
  match readU4beK s with
  | none => none
  | some (memoryCount, s) =>
  match cueEntryList numCues s with
  | none => none
  | some (cueList, _) => some (typ, numCues, memoryCount, cueList)

/-- `CueExtendedTag._read`. -/
def cueExtendedTagRead (raw : List Nat) : Option (Nat × Nat × List CueExtendedEntry) :=
  match readU4beK ⟨raw, 0⟩ with
  | none => none
  | some (typ, s) =>
  match readU2beK s with
  | none => none
  | some (numCues, s) =>
  match readBytesK 2 s with
  | none => none
  | some (_, s) =>
  match cueExtendedEntryList numCues s with
  | none => none
  | some (cues, _) => some (typ, numCues, cues)

/-- `BeatGridTag._read`. -/
def beatGridTagRead (raw : List Nat) : Option (Nat × Nat × Nat × List BeatGridBeat) :=
  match readU4beK ⟨raw, 0⟩ with
  | none => none
  | some (u0, s) =>
  match readU4beK s with
  | none => none
  | some (u1, s) =>
  match readU4beK s with
  | none => none
  | some (numBeats, s) =>
  match beatGridBeatList numBeats s with
  | none => none
  | some (beats, _) => some (u0, u1, numBeats, beats)

/-- `WavePreviewTag._read` (also used for `wave_tiny`): reads the data
bytes only when the parent's `len_tag` exceeds its `len_header`. -/
def wavePreviewRead (lenHeader lenTag : Nat) (raw : List Nat) :
    Option (Nat × Nat × Option (List Nat)) :=
  match readU4beK ⟨raw, 0⟩ with
  | none => none
  | some (lenData, s) =>
  match readU4beK s with
  | none => none
  | some (unknown, s) =>
  if lenTag > lenHeader then
    match readBytesK lenData s with
    | none => none
    | some (bytes, _) => some (lenData, unknown, some bytes)
  else some (lenData, unknown, none)

/-- `PathTag._read`: `len_path:u4be`, then — only when `len_path > 1` —
`len_path - 2` bytes decoded as UTF-16BE. -/
def pathTagRead (raw : List Nat) : Option (Nat × Option (List Nat)) :=
  match readU4beK ⟨raw, 0⟩ with
  | none => none
  | some (lenPath, s) =>
  if lenPath > 1 then
    match readBytesK (lenPath - 2) s with
    | none => none
    | some (bytes, _) =>
      match utf16beUnits bytes with
      | none => none
      | some us => some (lenPath, some us)
  else some (lenPath, none)

/-- `read_s4be` as a signed 32-bit reinterpretation of the unsigned word. -/
def toSigned32 (v : Nat) : Int :=
  if v < 2147483648 then (v : Int) else (v : Int) - 4294967296

/-- The closed fourcc enumeration of `SectionTags` (signed values). -/
def knownSectionTags : List Int :=
  [1346588466, 1346588482, 1347441736, 1347507290, 1347638089, 1347830354,
   1347895638, 1347900978, 1347900979, 1347900980, 1347900981, 1347900982,
   1347900983]

/-- The body dispatch of `TaggedSection._read` on the fourcc (one branch
per recognized tag, in source order; anything else is kept as an opaque
blob). -/
def sectionBodyRead (f : Int) (lenHeader lenTag : Nat) (raw : List Nat) :
    Option AnlzBody :=
  if f = 1347900981 then
    (waveTripleRead raw).map (fun r => AnlzBody.waveColorScroll r.1 r.2.1 r.2.2.1 r.2.2.2)
  else if f = 1347900979 then
    (waveTripleRead raw).map (fun r => AnlzBody.waveScroll r.1 r.2.1 r.2.2.1 r.2.2.2)
  else if f = 1347830354 then
    (vbrRead raw).map (fun r => AnlzBody.vbr r.1 r.2)
  else if f = 1347900983 then
    (waveTripleRead raw).map (fun r => AnlzBody.wave3bandScroll r.1 r.2.1 r.2.2.1 r.2.2.2)
  else if f = 1346588466 then
    (cueExtendedTagRead raw).map (fun r => AnlzBody.cues2 r.1 r.2.1 r.2.2)
  else if f = 1346588482 then
    (cueTagRead raw).map (fun r => AnlzBody.cues r.1 r.2.1 r.2.2.1 r.2.2.2)
  else if f = 1347638089 then
    (songStructureTagRead raw).map AnlzBody.songStructure
  else if f = 1347507290 then
    (beatGridTagRead raw).map (fun r => AnlzBody.beatGrid r.1 r.2.1 r.2.2.1 r.2.2.2)
  else if f = 1347895638 then
    (wavePreviewRead lenHeader lenTag raw).map
      (fun r => AnlzBody.wavePreview r.1 r.2.1 r.2.2)
  else if f = 1347900982 then
    (wave3bandPreviewRead raw).map (fun r => AnlzBody.wave3bandPreview r.1 r.2.1 r.2.2)
  else if f = 1347900980 then
    (waveTripleRead raw).map (fun r => AnlzBody.waveColorPreview r.1 r.2.1 r.2.2.1 r.2.2.2)
  else if f = 1347441736 then
    (pathTagRead raw).map (fun r => AnlzBody.path r.1 r.2)
  else if f = 1347900978 then
    (wavePreviewRead lenHeader lenTag raw).map
      (fun r => AnlzBody.wavePreview r.1 r.2.1 r.2.2)
  else
    some (AnlzBody.unknownTag raw)

/-- A parsed tagged section. -/
structure TaggedSection where
  fourcc : Int
  lenHeader : Nat
  lenTag : Nat
  body : AnlzBody
deriving Repr, DecidableEq

/-- `TaggedSection._read`: `fourcc:s4be`, `len_header:u4be`,
`len_tag:u4be`, then exactly `len_tag - 12` body bytes parsed by the
dispatch (`read_bytes` of a negative count raises, hence the
`len_tag < 12` failure). -/
def taggedSectionRead (s0 : KStream) : Option (TaggedSection × KStream) :=
  match readU4beK s0 with
  | none => none
  | some (fourccU, s) =>
  match readU4beK s with
  | none => none
  | some (lenHeader, s) =>
  match readU4beK s with
  | none => none
  | some (lenTag, s) =>
  if lenTag < 12 then none
  else
    match readBytesK (lenTag - 12) s with
    | none => none
    | some (raw, s) =>
      match sectionBodyRead (toSigned32 fourccU) lenHeader lenTag raw with
      | none => none
      | some body => some (⟨toSigned32 fourccU, lenHeader, lenTag, body⟩, s)

/-- The `while not self._io.is_eof()` section loop (fuel-bounded; the
top-level reader passes more fuel than bytes, and every successful section
read consumes at least 12 bytes, so fuel exhaustion is unreachable from
`anlzRead`). -/
def parseSections : Nat → KStream → Option (List TaggedSection)
  | 0, s => if s.data.length ≤ s.pos then some [] else none
  | fuel + 1, s =>
    if s.data.length ≤ s.pos then some []
    else
      match taggedSectionRead s with
      | none => none
      | some (sec, s1) =>
        match parseSections fuel s1 with
        | none => none
        | some rest => some (sec :: rest)

/-- A parsed analysis file. -/
structure AnlzFile where
  lenHeader : Nat
  lenFile : Nat
  sections : List TaggedSection
deriving Repr, DecidableEq

/-- `RekordboxAnlz._read`: the 4-byte `PMAI` magic (validated),
`len_header:u4be`, `len_file:u4be`, the rest of the declared header
skipped, then sections until end of input. -/
def anlzRead (data : List Nat) : Option AnlzFile :=
  match readBytesK 4 ⟨data, 0⟩ with
  | none => none
  | some (magic, s) =>
  if magic = [80, 77, 65, 73] then
    match readU4beK s with
    | none => none
    | some (lenHeader, s) =>
    match readU4beK s with
    | none => none
    | some (lenFile, s) =>
    if lenHeader < 12 then none
    else
      match readBytesK (lenHeader - 12) s with
      | none => none
      | some (_, s) =>
        match parseSections (data.length + 1) s with
        | none => none
        | some sections => some ⟨lenHeader, lenFile, sections⟩
  else none

/-- An unmasked 20-byte song-structure section body: `len_entry_bytes =
24`, `len_entries = 0`, raw body with `mood = 2`. -/
def c8PlainSection : List Nat :=
  [0, 0, 0, 24, 0, 0, 0, 2, 0, 0, 0, 0, 0, 0, 0, 0, 0, 0, 0, 0]

/-- A raw 14-byte song-structure body with `mood = 1` and no entries. -/
def c8PlainBody : List Nat := [0, 1, 0, 0, 0, 0, 0, 0, 0, 0, 0, 0, 0, 0]

/-- The masked counterpart of `c8PlainBody` wrapped in a section header:
the body is XORed with the 19-byte key for entry count 0, so its peeked
`mood` reads 52192 > 20. -/
def c8MaskedSection : List Nat :=
  [0, 0, 0, 24, 0, 0] ++ xorMany c8PlainBody (songStructureMaskIntended 0)

theorem songStructureMask_none (c : Nat) : songStructureMask c = none := by
  have h : packSignedByte (203 + (c : Int)) = none := by
    unfold packSignedByte
    rw [if_neg (by omega)]
  unfold songStructureMask songStructureMaskVals packAll
  rw [h]

/-- C8: the unmasked path parses the raw body directly (peeked mood 2 ≤ 20,
XOR with the zero byte is the identity) — proved on a concrete section;
but for every entry count `c` the mask construction fails
(`struct.pack('19b', 203 + c, ...)` packs 203 + c ≥ 203 with a signed-byte
format whose range check rejects it), so a section whose peeked mood
exceeds 20 makes the reader raise `struct.error` (`none`) instead of
unmasking and parsing — while XORing the same raw body with the 19-byte
key the claim describes recovers a body whose mood is 1 ∈ {1, 2, 3}. -/
theorem C8_song_structure_masking :
    (∀ c : Nat, songStructureMask c = none) ∧
    songStructureTagRead c8PlainSection =
      some ⟨24, 0, 2, false, ⟨2, 0, 0, []⟩⟩ ∧
    songStructureTagRead c8MaskedSection = none ∧
    songStructureBodyRead 0
        (xorMany (c8MaskedSection.drop 6) (songStructureMaskIntended 0)) =
      some ⟨1, 0, 0, []⟩ := by
  refine ⟨songStructureMask_none, by rfl, by rfl, by rfl⟩

/-- The big-endian byte quadruple of a 32-bit word. -/
def u32beBytes (n : Nat) : List Nat :=
  [n / 16777216 % 256, n / 65536 % 256, n / 256 % 256, n % 256]

theorem u32beBytes_length (n : Nat) : (u32beBytes n).length = 4 := rfl

theorem beVal_u32beBytes (n : Nat) (h : n < 4294967296) :
    beVal (u32beBytes n) = n := by
  show ((((0 * 256 + n / 16777216 % 256) * 256 + n / 65536 % 256) * 256 +
    n / 256 % 256) * 256 + n % 256) = n
  omega

theorem readBytesK_at (data pre mid post : List Nat) (p n : Nat)
    (hdata : data = pre ++ (mid ++ post)) (hp : p = pre.length)
    (hn : n = mid.length) :
    readBytesK n ⟨data, p⟩ = some (mid, ⟨data, p + n⟩) := by
  subst hdata
  subst hp
  subst hn
  exact readBytesK_append pre mid post

theorem readU4beK_at (data pre post : List Nat) (p v : Nat)
    (hdata : data = pre ++ (u32beBytes v ++ post)) (hp : p = pre.length)
    (hv : v < 4294967296) :
    readU4beK ⟨data, p⟩ = some (v, ⟨data, p + 4⟩) := by
  unfold readU4beK
  rw [readBytesK_at data pre (u32beBytes v) post p 4 hdata hp
    (u32beBytes_length v).symm]
  simp [beVal_u32beBytes v hv]

theorem parseSections_succ (fuel : Nat) (s : KStream)
    (h : ¬ s.data.length ≤ s.pos) (sec : TaggedSection) (s1 : KStream)
    (hsec : taggedSectionRead s = some (sec, s1)) :
    parseSections (fuel + 1) s =
      (parseSections fuel s1).map (fun rest => sec :: rest) := by
  have hstep : parseSections (fuel + 1) s =
      (if s.data.length ≤ s.pos then some []
       else
        match taggedSectionRead s with
        | none => none
        | some (sec, s1) =>
          match parseSections fuel s1 with
          | none => none
          | some rest => some (sec :: rest)) := rfl
  rw [hstep, if_neg h, hsec]
  cases hps : parseSections fuel s1 <;> simp [hps]

/-- C9: the analysis reader checks the 4-byte magic at the start of the
buffer (a wrong magic is rejected), and each section consumes a 4-byte
fourcc, a `u4be` header length, a `u4be` tag length and exactly
`tag_length - 12` body bytes; a section whose fourcc is outside the known
tag set parses to an opaque blob without error, and the section loop
continues with the rest of the input. -/
theorem C9_tagged_section_stream :
    (∀ data : List Nat, 4 ≤ data.length → data.take 4 ≠ [80, 77, 65, 73] →
      anlzRead data = none) ∧
    (∀ (pre b post : List Nat) (f lh lt fuel : Nat) (data : List Nat),
      data = pre ++ (u32beBytes f ++ (u32beBytes lh ++ (u32beBytes lt ++ (b ++ post)))) →
      f < 4294967296 → lh < 4294967296 → lt < 4294967296 →
      lt = 12 + b.length →
      toSigned32 f ∉ knownSectionTags →
      taggedSectionRead ⟨data, pre.length⟩ =
        some (⟨toSigned32 f, lh, lt, AnlzBody.unknownTag b⟩,
              ⟨data, pre.length + lt⟩) ∧
      parseSections (fuel + 1) ⟨data, pre.length⟩ =
        (parseSections fuel ⟨data, pre.length + lt⟩).map
          (fun rest => ⟨toSigned32 f, lh, lt, AnlzBody.unknownTag b⟩ :: rest)) := by
  constructor
  · intro data h4 hm
    unfold anlzRead
    simp only [readBytesK_eval 4 data 0 (by omega), List.drop_zero]
    rw [if_neg hm]
  · intro pre b post f lh lt fuel data hdata hf hlh hlt hlen12 hnot
    subst hdata
    have h1 : readU4beK ⟨pre ++ (u32beBytes f ++ (u32beBytes lh ++ (u32beBytes lt ++ (b ++ post)))), pre.length⟩ =
        some (f, ⟨pre ++ (u32beBytes f ++ (u32beBytes lh ++ (u32beBytes lt ++ (b ++ post)))), pre.length + 4⟩) :=
      readU4beK_at _ pre (u32beBytes lh ++ (u32beBytes lt ++ (b ++ post))) _ f rfl rfl hf
    have h2 : readU4beK ⟨pre ++ (u32beBytes f ++ (u32beBytes lh ++ (u32beBytes lt ++ (b ++ post)))), pre.length + 4⟩ =
        some (lh, ⟨pre ++ (u32beBytes f ++ (u32beBytes lh ++ (u32beBytes lt ++ (b ++ post)))), pre.length + 4 + 4⟩) :=
      readU4beK_at _ (pre ++ u32beBytes f) (u32beBytes lt ++ (b ++ post)) _ lh
        (by simp [List.append_assoc]) (by simp [u32beBytes_length]) hlh
    rw [show pre.length + 4 + 4 = pre.length + 8 from by omega] at h2
    have h3 : readU4beK ⟨pre ++ (u32beBytes f ++ (u32beBytes lh ++ (u32beBytes lt ++ (b ++ post)))), pre.length + 8⟩ =
        some (lt, ⟨pre ++ (u32beBytes f ++ (u32beBytes lh ++ (u32beBytes lt ++ (b ++ post)))), pre.length + 8 + 4⟩) :=
      readU4beK_at _ ((pre ++ u32beBytes f) ++ u32beBytes lh) (b ++ post) _ lt
        (by simp [List.append_assoc]) (by simp [u32beBytes_length]) hlt
    rw [show pre.length + 8 + 4 = pre.length + 12 from by omega] at h3
    have h4 : readBytesK (lt - 12) ⟨pre ++ (u32beBytes f ++ (u32beBytes lh ++ (u32beBytes lt ++ (b ++ post)))), pre.length + 12⟩ =
        some (b, ⟨pre ++ (u32beBytes f ++ (u32beBytes lh ++ (u32beBytes lt ++ (b ++ post)))), pre.length + 12 + (lt - 12)⟩) :=
      readBytesK_at _ (((pre ++ u32beBytes f) ++ u32beBytes lh) ++ u32beBytes lt) b post _ _
        (by simp [List.append_assoc]) (by simp [u32beBytes_length]) (by omega)
    rw [show pre.length + 12 + (lt - 12) = pre.length + lt from by omega] at h4
    simp only [knownSectionTags, List.mem_cons, List.not_mem_nil, or_false, not_or] at hnot
    obtain ⟨hn1, hn2, hn3, hn4, hn5, hn6, hn7, hn8, hn9, hn10, hn11, hn12, hn13⟩ := hnot
    have hbody : sectionBodyRead (toSigned32 f) lh lt b = some (AnlzBody.unknownTag b) := by
      unfold sectionBodyRead
      rw [if_neg hn11, if_neg hn9, if_neg hn6, if_neg hn13, if_neg hn1, if_neg hn2,
          if_neg hn5, if_neg hn4, if_neg hn7, if_neg hn12, if_neg hn10, if_neg hn3,
          if_neg hn8]
    have hsec : taggedSectionRead ⟨pre ++ (u32beBytes f ++ (u32beBytes lh ++ (u32beBytes lt ++ (b ++ post)))), pre.length⟩ =
        some (⟨toSigned32 f, lh, lt, AnlzBody.unknownTag b⟩,
              ⟨pre ++ (u32beBytes f ++ (u32beBytes lh ++ (u32beBytes lt ++ (b ++ post)))), pre.length + lt⟩) := by
      unfold taggedSectionRead
      simp only [h1, h2, h3]
      rw [if_neg (by omega : ¬ lt < 12)]
      simp only [h4, hbody]
    refine ⟨hsec, ?_⟩
    have hbound : ¬ (pre ++ (u32beBytes f ++ (u32beBytes lh ++ (u32beBytes lt ++ (b ++ post))))).length ≤ pre.length := by
      simp only [List.length_append, u32beBytes_length]
      omega
    exact parseSections_succ fuel _ hbound _ _ hsec

/-- The single unknown-fourcc section used by the C9 witness: fourcc
`ABCD`, header length 12, tag length 13, one body byte. -/
def c9SectionBytes : List Nat :=
  [] ++ (u32beBytes 1094861636 ++ (u32beBytes 12 ++ (u32beBytes 13 ++ ([7] ++ []))))

/-- C9 witness: a wrong-magic buffer is rejected, and the unknown-tag
section theorem applied to the concrete section `c9SectionBytes` yields an
opaque-blob section and a continuing loop. -/
theorem C9_tagged_section_stream_witness :
    anlzRead [0, 0, 0, 0] = none ∧
    taggedSectionRead ⟨c9SectionBytes, 0⟩ =
      some (⟨1094861636, 12, 13, AnlzBody.unknownTag [7]⟩, ⟨c9SectionBytes, 13⟩) ∧
    parseSections 2 ⟨c9SectionBytes, 0⟩ =
      (parseSections 1 ⟨c9SectionBytes, 13⟩).map
        (fun rest => ⟨1094861636, 12, 13, AnlzBody.unknownTag [7]⟩ :: rest) := by
  have h := C9_tagged_section_stream.2 [] [7] [] 1094861636 12 13 1 c9SectionBytes
    (by rfl) (by decide) (by decide) (by decide) (by decide) (by decide)
  exact ⟨C9_tagged_section_stream.1 [0, 0, 0, 0] (by decide) (by decide),
    by simpa using h.1, by simpa using h.2⟩

end UDJ
